import Mathlib

/-!
Verification of the augmented diamond-square generator (`aug_ds.py`).

The grid is a Python list of lists of integers; indexing follows Python
semantics (negative indices count from the end, out-of-range access raises).
Python's `int(...)` cast on the float arithmetic used throughout the source
is modelled as exact rational arithmetic truncated toward zero (`pyInt`).
The process-wide `random` generator seeded by `random.seed(seed)` is
modelled as an abstract stream of draws consumed at a single shared
counter: `ints n` is the value the n-th draw would return at a
`random.randint` call site, `rats n` the value at a `random.random` call
site.  The bounds passed to `randint` constrain the real generator and
appear as hypotheses on the stream in the theorems.  The recursion of
`auxRandAugDS` is run on explicit fuel; fuel sufficiency for every valid
run is proved rather than assumed.
-/

namespace AugDS

/-- A heightmap: Python list of rows, each a list of ints. -/
abbrev Grid := List (List Int)

/-- Runtime failures of the Python program (IndexError) or fuel exhaustion
of the embedded recursion. -/
inductive Err where
  | oob  : Err
  | fuel : Err
deriving DecidableEq, Repr

/-- Resolve a Python index `i` against a list of length `len`:
nonnegative indices must be `< len`, negative indices count from the end. -/
def pyIdx (len : Nat) (i : Int) : Option Nat :=
  if 0 ≤ i then
    if i < (len : Int) then some i.toNat else none
  else
    if 0 ≤ i + (len : Int) then some (i + (len : Int)).toNat else none

/-- `world_map[x]` with Python indexing. -/
def pyGetRow (g : Grid) (x : Int) : Option (List Int) :=
  (pyIdx g.length x).bind fun k => g.get? k

/-- `world_map[x][y]` with Python indexing. -/
def pyGet2 (g : Grid) (x y : Int) : Option Int :=
  (pyGetRow g x).bind fun row => (pyIdx row.length y).bind fun k => row.get? k

/-- `world_map[x][y] = v` with Python indexing. -/
def pySet2 (g : Grid) (x y : Int) (v : Int) : Option Grid :=
  (pyIdx g.length x).bind fun kx =>
    (g.get? kx).bind fun row =>
      (pyIdx row.length y).map fun ky => g.set kx (row.set ky v)

/-- Python's `int()` cast applied to an exact rational: truncation toward
zero. -/
def pyInt (q : ℚ) : ℤ :=
  if 0 ≤ q then ⌊q⌋ else ⌈q⌉

/-- Magnitude of height deviations (`0.2` in the source). -/
def HEIGHT_VARIATION_FACTOR : ℚ := 1 / 5

/-- Magnitude of random index variations (`0.2` in the source). -/
def RANDOMIZATION_SCALE_FACTOR : ℚ := 1 / 5

/-- The seeded `random` generator, abstracted as the sequence of values its
draws produce.  The n-th draw of a run reads position `n` of the stream. -/
structure DrawStream where
  ints : Nat → Int
  rats : Nat → ℚ

/-- `random.randint(lo, hi)` at draw counter `n`: returns the n-th int draw
and advances the counter.  `lo`/`hi` constrain the real generator; they are
recorded here only for traceability and are imposed as hypotheses on the
stream in the theorems. -/
def randint (ds : DrawStream) (n : Nat) (_lo _hi : Int) : Int × Nat :=
  (ds.ints n, n + 1)

/-- `random.random()` at draw counter `n`: the n-th float draw, in `[0,1)`
for the real generator. -/
def randomDraw (ds : DrawStream) (n : Nat) : ℚ × Nat :=
  (ds.rats n, n + 1)

/-- Every `random.random()` value lies in `[0, 1)`. -/
def RatsValid (ds : DrawStream) : Prop :=
  ∀ n, 0 ≤ ds.rats n ∧ ds.rats n < 1

/-- `dev(x0, y0, x1, y1)` from the source:
`int(HEIGHT_VARIATION_FACTOR * random.randint(-max(x1-x0, y1-y0), max(x1-x0, y1-y0)))`. -/
def dev (ds : DrawStream) (n : Nat) (x0 y0 x1 y1 : Int) : Int × Nat :=
  let m := max (x1 - x0) (y1 - y0)
  let r := randint ds n (-m) m
  (pyInt (HEIGHT_VARIATION_FACTOR * (r.1 : ℚ)), r.2)

/-- `randAugIndex(i0, i1)` from the source. -/
def randAugIndex (ds : DrawStream) (n : Nat) (i0 i1 : Int) : Int × Nat :=
  if i0 = i1 ∨ i1 < i0 then (i0, n)
  else if i0 + 1 = i1 then (i0, n)
  else if i0 + 2 = i1 then (i0 + 1, n)
  else
    let p := randomDraw ds n
    let i := pyInt ((i0 : ℚ) +
      (RANDOMIZATION_SCALE_FACTOR * p.1 + 1) * ((i1 : ℚ) - (i0 : ℚ)) / 2)
    if i = i0 then (i + 1, p.2)
    else if i = i1 then (i - 1, p.2)
    else (i, p.2)

/-- `Diamond(world_map, x0, y0, x1, y1, i, j)` from the source. -/
def Diamond (ds : DrawStream) (g : Grid) (n : Nat) (x0 y0 x1 y1 i j : Int) :
    Option (Grid × Nat) :=
  let d := dev ds n x0 y0 x1 y1
  match pyGet2 g x0 y0, pyGet2 g x1 y0, pyGet2 g x0 y1, pyGet2 g x1 y1 with
  | some v1, some v2, some v3, some v4 =>
    (pySet2 g i j (d.1 + pyInt (((v1 : ℚ) + v2 + v3 + v4) / 4))).map
      fun g' => (g', d.2)
  | _, _, _, _ => none

/-- `Square(world_map, x0, y0, x1, y1, i, j)` from the source: four writes,
each with its own deviation draw, in the source's fixed order. -/
def Square (ds : DrawStream) (g : Grid) (n : Nat) (x0 y0 x1 y1 i j : Int) :
    Option (Grid × Nat) :=
  let d1 := dev ds n y0 y0 y1 y1
  match pyGet2 g x0 y0, pyGet2 g x0 y1, pyGet2 g i j with
  | some a1, some b1, some c1 =>
    match pySet2 g x0 j (d1.1 + pyInt (((a1 : ℚ) + b1 + c1) / 3)) with
    | none => none
    | some g1 =>
      let d2 := dev ds d1.2 y0 y0 y1 y1
      match pyGet2 g1 x1 y0, pyGet2 g1 x1 y1, pyGet2 g1 i j with
      | some a2, some b2, some c2 =>
        match pySet2 g1 x1 j (d2.1 + pyInt (((a2 : ℚ) + b2 + c2) / 3)) with
        | none => none
        | some g2 =>
          let d3 := dev ds d2.2 x0 x0 x1 x1
          match pyGet2 g2 x0 y0, pyGet2 g2 x1 y0, pyGet2 g2 i j with
          | some a3, some b3, some c3 =>
            match pySet2 g2 i y0 (d3.1 + pyInt (((a3 : ℚ) + b3 + c3) / 3)) with
            | none => none
            | some g3 =>
              let d4 := dev ds d3.2 x0 x0 x1 x1
              match pyGet2 g3 x0 y1, pyGet2 g3 x1 y1, pyGet2 g3 i j with
              | some a4, some b4, some c4 =>
                match pySet2 g3 i y1
                    (d4.1 + pyInt (((a4 : ℚ) + b4 + c4) / 3)) with
                | none => none
                | some g4 => some (g4, d4.2)
              | _, _, _ => none
          | _, _, _ => none
      | _, _, _ => none
  | _, _, _ => none

/-- One iteration of the column-degenerate interpolation loop executes the
source's two (identical) assignment statements at row index `y`; `k` counts
the remaining iterations of `for y in range(y0 + 1, y1)`. -/
def colInterpLoop (i y0 y1 : Int) : Nat → Grid → Int → Option Grid
  | 0, g, _ => some g
  | k + 1, g, y =>
    match pyGet2 g i y0, pyGet2 g i y1 with
    | some a, some b =>
      match pySet2 g i y (pyInt ((a : ℚ) +
          ((b : ℚ) - (a : ℚ)) * ((y : ℚ) - (y0 : ℚ)) / ((y1 : ℚ) - (y0 : ℚ)))) with
      | none => none
      | some g1 =>
        match pyGet2 g1 i y0, pyGet2 g1 i y1 with
        | some a2, some b2 =>
          match pySet2 g1 i y (pyInt ((a2 : ℚ) +
              ((b2 : ℚ) - (a2 : ℚ)) * ((y : ℚ) - (y0 : ℚ)) / ((y1 : ℚ) - (y0 : ℚ)))) with
          | none => none
          | some g2 => colInterpLoop i y0 y1 k g2 (y + 1)
        | _, _ => none
    | _, _ => none

/-- The column-degenerate branch of `auxRandAugDS` (lines 149-154):
`for y in range(y0+1, y1): world_map[i][y] = int(world_map[i][y0] +
(world_map[i][y1] - world_map[i][y0]) * (y - y0) / (y1 - y0))`, stated twice. -/
def colInterp (g : Grid) (i y0 y1 : Int) : Option Grid :=
  colInterpLoop i y0 y1 (y1 - y0 - 1).toNat g (y0 + 1)

/-- One iteration of the row-degenerate loop at column index `x`.  The
source's formula here is `world_map[x0][j] + (world_map[x0][j] -
world_map[x1][j]) * (x - x0) / (x1 - x0)` — note the subtraction order,
kept exactly as written on lines 158-159. -/
def rowInterpLoop (j x0 x1 : Int) : Nat → Grid → Int → Option Grid
  | 0, g, _ => some g
  | k + 1, g, x =>
    match pyGet2 g x0 j, pyGet2 g x1 j with
    | some a, some b =>
      match pySet2 g x j (pyInt ((a : ℚ) +
          ((a : ℚ) - (b : ℚ)) * ((x : ℚ) - (x0 : ℚ)) / ((x1 : ℚ) - (x0 : ℚ)))) with
      | none => none
      | some g1 =>
        match pyGet2 g1 x0 j, pyGet2 g1 x1 j with
        | some a2, some b2 =>
          match pySet2 g1 x j (pyInt ((a2 : ℚ) +
              ((a2 : ℚ) - (b2 : ℚ)) * ((x : ℚ) - (x0 : ℚ)) / ((x1 : ℚ) - (x0 : ℚ)))) with
          | none => none
          | some g2 => rowInterpLoop j x0 x1 k g2 (x + 1)
        | _, _ => none
    | _, _ => none

/-- The row-degenerate branch of `auxRandAugDS` (lines 155-160). -/
def rowInterp (g : Grid) (x0 x1 j : Int) : Option Grid :=
  rowInterpLoop j x0 x1 (x1 - x0 - 1).toNat g (x0 + 1)

/-- `auxRandAugDS(world_map, x0, y0, x1, y1)` from the source, run on
explicit fuel (the Python recursion has none; fuel sufficiency is proved). -/
def auxRandAugDS (ds : DrawStream) :
    Nat → Grid → Nat → Int → Int → Int → Int → Except Err (Grid × Nat)
  | 0, _, _, _, _, _, _ => .error .fuel
  | fuel + 1, g, n, x0, y0, x1, y1 =>
    if x0 = x1 ∧ y0 = y1 then .ok (g, n)
    else
      let pI := randAugIndex ds n x0 x1
      let i := pI.1
      let pJ := randAugIndex ds pI.2 y0 y1
      let j := pJ.1
      let n2 := pJ.2
      if i = x0 ∨ i = x1 then
        match colInterp g i y0 y1 with
        | none => .error .oob
        | some g' => .ok (g', n2)
      else if j = y0 ∨ j = y1 then
        match rowInterp g x0 x1 j with
        | none => .error .oob
        | some g' => .ok (g', n2)
      else
        match Diamond ds g n2 x0 y0 x1 y1 i j with
        | none => .error .oob
        | some (g1, n3) =>
          match Square ds g1 n3 x0 y0 x1 y1 i j with
          | none => .error .oob
          | some (g2, n4) =>
            match auxRandAugDS ds fuel g2 n4 x0 y0 i j with
            | .error e => .error e
            | .ok (g3, n5) =>
              match auxRandAugDS ds fuel g3 n5 x0 j i y1 with
              | .error e => .error e
              | .ok (g4, n6) =>
                match auxRandAugDS ds fuel g4 n6 i y0 x1 j with
                | .error e => .error e
                | .ok (g5, n7) =>
                  match auxRandAugDS ds fuel g5 n7 i j x1 y1 with
                  | .error e => .error e
                  | .ok (g6, n8) => .ok (g6, n8)

/-- The body of `edgeCleanup`'s first loop for one row index `x`:
repair `world_map[x][0]` then `world_map[x][-1]` when they are 0 and `x`
is interior. -/
def cleanupRow (g : Grid) (x : Int) : Option Grid :=
  match pyGet2 g x 0 with
  | none => none
  | some c0 =>
    let step1 : Option Grid :=
      if c0 = 0 then
        if 0 < x ∧ x < (g.length : Int) - 1 then
          match pyGet2 g (x - 1) 0, pyGet2 g x 1, pyGet2 g (x + 1) 0 with
          | some u, some v, some w =>
            pySet2 g x 0 (pyInt (((u : ℚ) + v + w) / 3))
          | _, _, _ => none
        else some g
      else some g
    match step1 with
    | none => none
    | some g1 =>
      match pyGet2 g1 x (-1) with
      | none => none
      | some c1 =>
        if c1 = 0 then
          if 0 < x ∧ x < (g1.length : Int) - 1 then
            match pyGet2 g1 (x - 1) (-1), pyGet2 g1 x (-2),
                pyGet2 g1 (x + 1) (-1) with
            | some u, some v, some w =>
              pySet2 g1 x (-1) (pyInt (((u : ℚ) + v + w) / 3))
            | _, _, _ => none
          else some g1
        else some g1

/-- The body of `edgeCleanup`'s second loop for one column index `y`:
repair `world_map[0][y]` then `world_map[-1][y]`.  The guard
`0 < y < len(world_map[0]) - 1` short-circuits, so `world_map[0]` is read
for its length only when `0 < y`. -/
def cleanupCol (g : Grid) (y : Int) : Option Grid :=
  match pyGet2 g 0 y with
  | none => none
  | some c0 =>
    let step1 : Option Grid :=
      if c0 = 0 then
        if 0 < y then
          match pyGetRow g 0 with
          | none => none
          | some r0 =>
            if y < (r0.length : Int) - 1 then
              match pyGet2 g 0 (y - 1), pyGet2 g 1 y, pyGet2 g 0 (y + 1) with
              | some u, some v, some w =>
                pySet2 g 0 y (pyInt (((u : ℚ) + v + w) / 3))
              | _, _, _ => none
            else some g
        else some g
      else some g
    match step1 with
    | none => none
    | some g1 =>
      match pyGet2 g1 (-1) y with
      | none => none
      | some c1 =>
        if c1 = 0 then
          if 0 < y then
            match pyGetRow g1 0 with
            | none => none
            | some r0 =>
              if y < (r0.length : Int) - 1 then
                match pyGet2 g1 (-1) (y - 1), pyGet2 g1 (-2) y,
                    pyGet2 g1 (-1) (y + 1) with
                | some u, some v, some w =>
                  pySet2 g1 (-1) y (pyInt (((u : ℚ) + v + w) / 3))
                | _, _, _ => none
              else some g1
          else some g1
        else some g1

/-- Sequential execution of `cleanupRow` over a list of row indices. -/
def cleanupRowsLoop : Grid → List Int → Option Grid
  | g, [] => some g
  | g, x :: xs =>
    match cleanupRow g x with
    | none => none
    | some g' => cleanupRowsLoop g' xs

/-- Sequential execution of `cleanupCol` over a list of column indices. -/
def cleanupColsLoop : Grid → List Int → Option Grid
  | g, [] => some g
  | g, y :: ys =>
    match cleanupCol g y with
    | none => none
    | some g' => cleanupColsLoop g' ys

/-- `range(n)` as a list of Python int indices. -/
def intRange (n : Nat) : List Int :=
  List.map (fun k : Nat => (k : Int)) (List.range n)

/-- `edgeCleanup(world_map)` from the source: the row pass over
`range(len(world_map))`, then the column pass over
`range(len(world_map[0]))`. -/
def edgeCleanup (g : Grid) : Option Grid :=
  match cleanupRowsLoop g (intRange g.length) with
  | none => none
  | some g1 =>
    match pyGetRow g1 0 with
    | none => none
    | some r0 => cleanupColsLoop g1 (intRange r0.length)

/-- `randAugDS(world_map, seed)` from the source.  `random.seed(seed)` is
modelled by the stream `ds` itself (the stream of draws the seeded
generator produces).  Returns the final grid together with the number of
draws consumed. -/
def randAugDS (ds : DrawStream) (g : Grid) : Except Err (Grid × Nat) :=
  let x1 : Int := (g.length : Int) - 1
  match pyGetRow g 0 with
  | none => .error .oob
  | some row0 =>
    let y1 : Int := (row0.length : Int) - 1
    let m := max x1 y1
    let c0 := randint ds 0 0 m
    match pySet2 g 0 0 c0.1 with
    | none => .error .oob
    | some gA =>
      let c1 := randint ds c0.2 0 m
      match pySet2 gA 0 y1 c1.1 with
      | none => .error .oob
      | some gB =>
        let c2 := randint ds c1.2 0 m
        match pySet2 gB x1 0 c2.1 with
        | none => .error .oob
        | some gC =>
          let c3 := randint ds c2.2 0 m
          match pySet2 gC x1 y1 c3.1 with
          | none => .error .oob
          | some gD =>
            match auxRandAugDS ds (g.length + row0.length + 1) gD c3.2
                0 0 x1 y1 with
            | .error e => .error e
            | .ok (gE, n) =>
              match edgeCleanup gE with
              | none => .error .oob
              | some gF => .ok (gF, n)

end AugDS

namespace AugDS

/-- A rectangular (non-jagged) W×H grid. -/
def Rect (g : Grid) (W H : Nat) : Prop :=
  g.length = W ∧ ∀ row ∈ g, row.length = H

/-- The all-zero draw stream, used for concrete runs. -/
def dsZero : DrawStream := ⟨fun _ => 0, fun _ => 0⟩

/-- The cells `auxRandAugDS` may write inside region `(x0, y0, x1, y1)`:
every write has at least one coordinate strictly interior to the region. -/
def Touch (x0 y0 x1 y1 p q : Int) : Prop :=
  (x0 ≤ p ∧ p ≤ x1 ∧ y0 < q ∧ q < y1) ∨ (x0 < p ∧ p < x1 ∧ y0 ≤ q ∧ q ≤ y1)

/-- The centre value written by the single Diamond step of a 3×3 run:
deviation draw 4 plus the truncated average of the four corner draws. -/
def centre33 (ds : DrawStream) : Int :=
  pyInt (HEIGHT_VARIATION_FACTOR * (ds.ints 4 : ℚ)) +
    pyInt (((ds.ints 0 : ℚ) + (ds.ints 2 : ℚ) + (ds.ints 1 : ℚ) + (ds.ints 3 : ℚ)) / 4)

/-- An edge midpoint written by the single Square step of a 3×3 run:
deviation draw `k` plus the truncated average of the two adjacent corners
and the centre. -/
def sq33 (ds : DrawStream) (k : Nat) (u v : Int) : Int :=
  pyInt (HEIGHT_VARIATION_FACTOR * (ds.ints k : ℚ)) +
    pyInt (((u : ℚ) + (v : ℚ) + (centre33 ds : ℚ)) / 3)

/-- A draw stream whose four initialization draws are 1, 2, 3, 4 and whose
later draws are all 0; used as a concrete 3×3 run. -/
def ds33 : DrawStream :=
  ⟨fun n => if n < 4 then (n : Int) + 1 else 0, fun _ => 0⟩

/-- The grid produced by initialization plus the subdivision driver on a
3×3 zero grid, before Edge Cleanup. -/
def grid33 (ds : DrawStream) : Grid :=
  [[ds.ints 0, sq33 ds 5 (ds.ints 0) (ds.ints 1), ds.ints 1],
   [sq33 ds 7 (ds.ints 0) (ds.ints 2), centre33 ds, sq33 ds 8 (ds.ints 1) (ds.ints 3)],
   [ds.ints 2, sq33 ds 6 (ds.ints 2) (ds.ints 3), ds.ints 3]]

/-- A draw stream whose first two int draws are 0 and all later int draws
are 6, with all float draws 0; used as a concrete 2×7 run. -/
def ds27 : DrawStream :=
  ⟨fun n => if n < 2 then 0 else 6, fun _ => 0⟩

/-- A draw stream whose int draws are 0, 1, 1, 0, 0, ...; used for a
concrete 1×2 run where the corner initialization writes overlap. -/
def ds12 : DrawStream :=
  ⟨fun n => if n = 1 ∨ n = 2 then 1 else 0, fun _ => 0⟩

/-- The interpolation value the column-degenerate branch writes at column
`y` of a line whose endpoints (columns 0 and 6) hold `a` and `b`. -/
def ramp7 (a b y : Int) : Int :=
  pyInt ((a : ℚ) + ((b : ℚ) - (a : ℚ)) * ((y : ℚ) - ((0 : Int) : ℚ)) /
    (((6 : Int) : ℚ) - ((0 : Int) : ℚ)))

theorem pyIdx_nonneg {len : Nat} {i : Int} (h0 : 0 ≤ i) (h1 : i < (len : Int)) :
    pyIdx len i = some i.toNat := by
  simp [pyIdx, h0, h1]

theorem pyIdx_neg {len : Nat} {i : Int} (h0 : i < 0) (h1 : 0 ≤ i + (len : Int)) :
    pyIdx len i = some (i + (len : Int)).toNat := by
  have : ¬ 0 ≤ i := by omega
  simp [pyIdx, this, h1]

theorem pyIdx_shift {len : Nat} {i : Int} (h0 : i < 0) (h1 : 0 ≤ i + (len : Int)) :
    pyIdx len i = pyIdx len (i + (len : Int)) := by
  rw [pyIdx_neg h0 h1, pyIdx_nonneg h1 (by omega)]

theorem get?_set_self {α : Type} (l : List α) (n : Nat) (a : α) (h : n < l.length) :
    (l.set n a).get? n = some a := by
  induction l generalizing n with
  | nil => simp at h
  | cons x xs ih =>
    cases n with
    | zero => rfl
    | succ m => simpa using ih m (by simpa using h)

theorem get?_set_ne {α : Type} (l : List α) (n m : Nat) (a : α) (h : n ≠ m) :
    (l.set n a).get? m = l.get? m := by
  induction l generalizing n m with
  | nil => simp
  | cons x xs ih =>
    cases n with
    | zero =>
      cases m with
      | zero => exact absurd rfl h
      | succ k => rfl
    | succ n' =>
      cases m with
      | zero => rfl
      | succ k => simpa using ih n' k (by omega)

theorem set_eq_of_get? {α : Type} (l : List α) (n : Nat) (a : α)
    (h : l.get? n = some a) : l.set n a = l := by
  induction l generalizing n with
  | nil => rfl
  | cons x xs ih =>
    cases n with
    | zero => simp_all
    | succ m => simpa using ih m (by simpa using h)

theorem rect_row {g : Grid} {W H : Nat} (hg : Rect g W H) {k : Nat} {row : List Int}
    (h : g.get? k = some row) : row.length = H :=
  hg.2 row (List.get?_mem h)

theorem pyGetRow_eq {g : Grid} {W H : Nat} (hg : Rect g W H) {x : Int}
    (hx0 : 0 ≤ x) (hx1 : x < (W : Int)) :
    ∃ row, pyGetRow g x = some row ∧ g.get? x.toNat = some row ∧ row.length = H := by
  have hW : g.length = W := hg.1
  have hlen : x.toNat < g.length := by omega
  refine ⟨g.get ⟨x.toNat, hlen⟩, ?_, ?_, ?_⟩
  · rw [pyGetRow, pyIdx_nonneg hx0 (by omega)]
    simp [List.get?_eq_get hlen]
  · simp [List.get?_eq_get hlen]
  · exact hg.2 _ (g.get_mem _ _)

end AugDS

namespace AugDS

theorem pyGetRow_mem {g : Grid} {x : Int} {row : List Int}
    (h : pyGetRow g x = some row) : row ∈ g := by
  rw [pyGetRow] at h
  cases hk : pyIdx g.length x with
  | none => rw [hk] at h; simp at h
  | some k =>
    rw [hk] at h
    simp only [Option.some_bind] at h
    exact List.get?_mem h

theorem pyGet2_eq {g : Grid} {W H : Nat} (hg : Rect g W H) {x y : Int}
    (hx0 : 0 ≤ x) (hx1 : x < (W : Int)) (hy0 : 0 ≤ y) (hy1 : y < (H : Int)) :
    ∃ v, pyGet2 g x y = some v := by
  obtain ⟨row, hrow, hget, hlen⟩ := pyGetRow_eq hg hx0 hx1
  have hy : y.toNat < row.length := by omega
  refine ⟨row.get ⟨y.toNat, hy⟩, ?_⟩
  rw [pyGet2, hrow]
  have : (row.length : Int) = (H : Int) := by omega
  simp [pyIdx_nonneg hy0 (by omega : y < (row.length : Int)), List.get?_eq_get hy]

theorem pySet2_eq {g : Grid} {W H : Nat} (hg : Rect g W H) {x y : Int}
    (hx0 : 0 ≤ x) (hx1 : x < (W : Int)) (hy0 : 0 ≤ y) (hy1 : y < (H : Int)) (v : Int) :
    ∃ g', pySet2 g x y v = some g' := by
  obtain ⟨row, hrow, hget, hlen⟩ := pyGetRow_eq hg hx0 hx1
  have hW : g.length = W := hg.1
  refine ⟨g.set x.toNat (row.set y.toNat v), ?_⟩
  rw [pySet2, pyIdx_nonneg hx0 (by omega : x < (g.length : Int))]
  simp only [Option.some_bind]
  rw [hget]
  simp only [Option.some_bind]
  rw [pyIdx_nonneg hy0 (by omega : y < (row.length : Int))]
  rfl

theorem pySet2_spec {g g' : Grid} {W H : Nat} {x y : Int} {v : Int}
    (hg : Rect g W H) (hx0 : 0 ≤ x) (hy0 : 0 ≤ y)
    (h : pySet2 g x y v = some g') :
    Rect g' W H ∧ x < (W : Int) ∧ y < (H : Int) ∧ pyGet2 g' x y = some v ∧
      ∀ p q : Int, 0 ≤ p → 0 ≤ q → ¬(p = x ∧ q = y) →
        pyGet2 g' p q = pyGet2 g p q := by
  have hW : g.length = W := hg.1
  rw [pySet2] at h
  by_cases hx1 : x < (g.length : Int)
  case neg => rw [pyIdx] at h; simp [hx0, hx1] at h
  rw [pyIdx_nonneg hx0 hx1] at h
  simp only [Option.some_bind] at h
  cases hget : g.get? x.toNat with
  | none => rw [hget] at h; simp at h
  | some row =>
  rw [hget] at h
  simp only [Option.some_bind] at h
  have hlen : row.length = H := rect_row hg hget
  by_cases hy1 : y < (row.length : Int)
  case neg => rw [pyIdx] at h; simp [hy0, hy1] at h
  rw [pyIdx_nonneg hy0 hy1] at h
  simp only [Option.map_some'] at h
  have hg' : g' = g.set x.toNat (row.set y.toNat v) := by
    exact (Option.some.injEq _ _ ▸ h).symm
  subst hg'
  have hxW : x < (W : Int) := by omega
  have hyH : y < (H : Int) := by omega
  have hxlt : x.toNat < g.length := by omega
  have hylt : y.toNat < row.length := by omega
  have hrect : Rect (g.set x.toNat (row.set y.toNat v)) W H := by
    constructor
    · rw [List.length_set]; exact hW
    · intro r hr
      rcases List.mem_or_eq_of_mem_set hr with hmem | heq
      · exact hg.2 r hmem
      · rw [heq, List.length_set]; exact hlen
  refine ⟨hrect, hxW, hyH, ?_, ?_⟩
  · rw [pyGet2, pyGetRow, List.length_set, pyIdx_nonneg hx0 hx1]
    simp only [Option.some_bind]
    rw [get?_set_self _ _ _ hxlt]
    simp only [Option.some_bind]
    rw [List.length_set, pyIdx_nonneg hy0 hy1]
    simp only [Option.some_bind]
    rw [get?_set_self _ _ _ hylt]
  · intro p q hp0 hq0 hpq
    rw [pyGet2, pyGet2, pyGetRow, pyGetRow, List.length_set]
    by_cases hpl : p < (g.length : Int)
    case neg =>
      rw [pyIdx]; simp [hp0, hpl]
    rw [pyIdx_nonneg hp0 hpl]
    simp only [Option.some_bind]
    by_cases hpx : p = x
    · subst hpx
      have hq : q ≠ y := fun hqy => hpq ⟨rfl, hqy⟩
      rw [get?_set_self _ _ _ hxlt, hget]
      simp only [Option.some_bind]
      rw [List.length_set]
      by_cases hql : q < (row.length : Int)
      case neg => rw [pyIdx]; simp [hq0, hql]
      rw [pyIdx_nonneg hq0 hql]
      simp only [Option.some_bind]
      exact get?_set_ne _ _ _ _ (by omega)
    · rw [get?_set_ne _ _ _ _ (by omega)]

theorem pySet2_rect {g g' : Grid} {W H : Nat} {x y : Int} {v : Int}
    (hg : Rect g W H) (h : pySet2 g x y v = some g') : Rect g' W H := by
  rw [pySet2] at h
  cases hkx : pyIdx g.length x with
  | none => rw [hkx] at h; simp at h
  | some kx =>
  rw [hkx] at h; simp only [Option.some_bind] at h
  cases hget : g.get? kx with
  | none => rw [hget] at h; simp at h
  | some row =>
  rw [hget] at h; simp only [Option.some_bind] at h
  cases hky : pyIdx row.length y with
  | none => rw [hky] at h; simp at h
  | some ky =>
  rw [hky] at h; simp only [Option.map_some'] at h
  have hg' : g' = g.set kx (row.set ky v) := (Option.some.injEq _ _ ▸ h).symm
  subst hg'
  constructor
  · rw [List.length_set]; exact hg.1
  · intro r hr
    rcases List.mem_or_eq_of_mem_set hr with hmem | heq
    · exact hg.2 r hmem
    · rw [heq, List.length_set]; exact rect_row hg hget

theorem pyGet2_negy {g : Grid} {W H : Nat} (hg : Rect g W H) {y : Int}
    (h0 : y < 0) (h1 : 0 ≤ y + (H : Int)) (x : Int) :
    pyGet2 g x y = pyGet2 g x (y + (H : Int)) := by
  rw [pyGet2, pyGet2]
  cases hrow : pyGetRow g x with
  | none => rfl
  | some row =>
    have hlen : row.length = H := hg.2 row (pyGetRow_mem hrow)
    simp only [Option.some_bind]
    rw [show ((H : Int)) = (row.length : Int) by omega] at h1 ⊢
    rw [pyIdx_shift h0 h1]

theorem pySet2_negy {g : Grid} {W H : Nat} (hg : Rect g W H) {y : Int}
    (h0 : y < 0) (h1 : 0 ≤ y + (H : Int)) (x : Int) (v : Int) :
    pySet2 g x y v = pySet2 g x (y + (H : Int)) v := by
  rw [pySet2, pySet2]
  cases hkx : pyIdx g.length x with
  | none => rfl
  | some kx =>
  simp only [Option.some_bind]
  cases hget : g.get? kx with
  | none => rfl
  | some row =>
  simp only [Option.some_bind]
  have hlen : row.length = H := rect_row hg hget
  rw [show ((H : Int)) = (row.length : Int) by omega] at h1 ⊢
  rw [pyIdx_shift h0 h1]

theorem pyGet2_negx {g : Grid} {W H : Nat} (hg : Rect g W H) {x : Int}
    (h0 : x < 0) (h1 : 0 ≤ x + (W : Int)) (y : Int) :
    pyGet2 g x y = pyGet2 g (x + (W : Int)) y := by
  have hW : g.length = W := hg.1
  rw [pyGet2, pyGet2, pyGetRow, pyGetRow]
  rw [show ((W : Int)) = (g.length : Int) by omega] at h1 ⊢
  rw [pyIdx_shift h0 h1]

theorem pySet2_negx {g : Grid} {W H : Nat} (hg : Rect g W H) {x : Int}
    (h0 : x < 0) (h1 : 0 ≤ x + (W : Int)) (y : Int) (v : Int) :
    pySet2 g x y v = pySet2 g (x + (W : Int)) y v := by
  have hW : g.length = W := hg.1
  rw [pySet2, pySet2]
  rw [show ((W : Int)) = (g.length : Int) by omega] at h1 ⊢
  rw [pyIdx_shift h0 h1]

theorem pySet2_self {g : Grid} {x y : Int} {v : Int}
    (h : pyGet2 g x y = some v) : pySet2 g x y v = some g := by
  rw [pyGet2, pyGetRow] at h
  rw [pySet2]
  cases hkx : pyIdx g.length x with
  | none => rw [hkx] at h; simp at h
  | some kx =>
  rw [hkx] at h
  simp only [Option.some_bind] at h ⊢
  cases hget : g.get? kx with
  | none => rw [hget] at h; simp at h
  | some row =>
  rw [hget] at h
  simp only [Option.some_bind] at h ⊢
  cases hky : pyIdx row.length y with
  | none => rw [hky] at h; simp at h
  | some ky =>
  rw [hky] at h
  simp only [Option.some_bind] at h
  rw [Option.map_some']
  rw [set_eq_of_get? _ _ _ h, set_eq_of_get? _ _ _ hget]

theorem floor_le_pyInt (q : ℚ) : ⌊q⌋ ≤ pyInt q := by
  rw [pyInt]; split
  · exact le_refl _
  · exact Int.floor_le_ceil q

theorem pyInt_le_ceil (q : ℚ) : pyInt q ≤ ⌈q⌉ := by
  rw [pyInt]; split
  · exact Int.floor_le_ceil q
  · exact le_refl _

theorem pyInt_eq_zero {q : ℚ} (h0 : -1 < q) (h1 : q < 1) : pyInt q = 0 := by
  rw [pyInt]; split
  case isTrue h => exact Int.floor_eq_zero_iff.mpr ⟨h, h1⟩
  case isFalse h => exact Int.ceil_eq_zero_iff.mpr ⟨h0, le_of_not_le h⟩

end AugDS

namespace AugDS

theorem randAugIndex_small0 {ds : DrawStream} {n : Nat} {i0 i1 : Int}
    (h : i1 ≤ i0) : randAugIndex ds n i0 i1 = (i0, n) := by
  rw [randAugIndex, if_pos (by omega : i0 = i1 ∨ i1 < i0)]

theorem randAugIndex_small1 {ds : DrawStream} {n : Nat} {i0 i1 : Int}
    (h : i1 - i0 = 1) : randAugIndex ds n i0 i1 = (i0, n) := by
  rw [randAugIndex, if_neg (by omega : ¬(i0 = i1 ∨ i1 < i0)),
    if_pos (by omega : i0 + 1 = i1)]

theorem randAugIndex_small2 {ds : DrawStream} {n : Nat} {i0 i1 : Int}
    (h : i1 - i0 = 2) : randAugIndex ds n i0 i1 = (i0 + 1, n) := by
  rw [randAugIndex, if_neg (by omega : ¬(i0 = i1 ∨ i1 < i0)),
    if_neg (by omega : ¬(i0 + 1 = i1)), if_pos (by omega : i0 + 2 = i1)]

theorem randAugIndex_case4 {ds : DrawStream} {n : Nat} {i0 i1 : Int}
    (h3 : i0 + 3 ≤ i1) (hr0 : 0 ≤ ds.rats n) (hr1 : ds.rats n < 1) :
    i0 < (randAugIndex ds n i0 i1).1 ∧ (randAugIndex ds n i0 i1).1 < i1 ∧
      (randAugIndex ds n i0 i1).2 = n + 1 := by
  have hne1 : ¬(i0 = i1 ∨ i1 < i0) := by omega
  have hne2 : ¬(i0 + 1 = i1) := by omega
  have hne3 : ¬(i0 + 2 = i1) := by omega
  simp only [randAugIndex, if_neg hne1, if_neg hne2, if_neg hne3, randomDraw]
  set r : ℚ := ds.rats n with hrdef
  set q : ℚ := (i0 : ℚ) +
    (RANDOMIZATION_SCALE_FACTOR * r + 1) * ((i1 : ℚ) - (i0 : ℚ)) / 2 with hqdef
  have hD : (3 : ℚ) ≤ (i1 : ℚ) - (i0 : ℚ) := by
    have : ((i0 + 3 : Int) : ℚ) ≤ ((i1 : Int) : ℚ) := by exact_mod_cast h3
    push_cast at this
    linarith
  have hfac : RANDOMIZATION_SCALE_FACTOR = 1 / 5 := rfl
  have hql : (i0 : ℚ) < q := by
    rw [hqdef, hfac]
    nlinarith [hD, hr0]
  have hqu : q < (i1 : ℚ) := by
    rw [hqdef, hfac]
    nlinarith [hD, hr0, hr1]
  have h1 : i0 ≤ pyInt q := le_trans (Int.le_floor.mpr (le_of_lt hql)) (floor_le_pyInt q)
  have h2 : pyInt q ≤ i1 := le_trans (pyInt_le_ceil q) (Int.ceil_le.mpr (le_of_lt hqu))
  split_ifs with hi0 hi1
  · exact ⟨by omega, by omega, rfl⟩
  · exact ⟨by omega, by omega, rfl⟩
  · exact ⟨by omega, by omega, rfl⟩

theorem randAugIndex_mem {ds : DrawStream} {n : Nat} {i0 i1 : Int}
    (h01 : i0 ≤ i1) (hr0 : 0 ≤ ds.rats n) (hr1 : ds.rats n < 1) :
    i0 ≤ (randAugIndex ds n i0 i1).1 ∧ (randAugIndex ds n i0 i1).1 ≤ i1 := by
  by_cases h3 : i0 + 3 ≤ i1
  · obtain ⟨ha, hb, -⟩ := randAugIndex_case4 h3 hr0 hr1
    exact ⟨le_of_lt ha, le_of_lt hb⟩
  · have hsmall : i1 - i0 = 0 ∨ i1 - i0 = 1 ∨ i1 - i0 = 2 := by omega
    rcases hsmall with h | h | h
    · rw [randAugIndex_small0 (by omega)]
      exact ⟨le_rfl, h01⟩
    · rw [randAugIndex_small1 h]
      exact ⟨le_rfl, h01⟩
    · rw [randAugIndex_small2 h]
      exact ⟨(by omega : i0 ≤ i0 + 1), (by omega : i0 + 1 ≤ i1)⟩

/-- C2: the Midpoint Selector contract.  For integer bounds `i0 ≤ i1` and a
`random.random()` draw in `[0,1)`: the result lies in `[i0, i1]`; spans 0
and 1 return `i0` with the draw counter unchanged (no draw consumed); span
2 returns `i0 + 1` with the counter unchanged; spans `≥ 3` give a strictly
interior result. -/
theorem randAugIndex_contract (ds : DrawStream) (n : Nat) (i0 i1 : Int)
    (h01 : i0 ≤ i1) (hr0 : 0 ≤ ds.rats n) (hr1 : ds.rats n < 1) :
    (i0 ≤ (randAugIndex ds n i0 i1).1 ∧ (randAugIndex ds n i0 i1).1 ≤ i1) ∧
    (i1 - i0 = 0 ∨ i1 - i0 = 1 → randAugIndex ds n i0 i1 = (i0, n)) ∧
    (i1 - i0 = 2 → randAugIndex ds n i0 i1 = (i0 + 1, n)) ∧
    (3 ≤ i1 - i0 → i0 < (randAugIndex ds n i0 i1).1 ∧
      (randAugIndex ds n i0 i1).1 < i1) := by
  refine ⟨randAugIndex_mem h01 hr0 hr1, ?_, ?_, ?_⟩
  · rintro (h | h)
    · exact randAugIndex_small0 (by omega)
    · exact randAugIndex_small1 h
  · exact fun h => randAugIndex_small2 h
  · intro h
    obtain ⟨ha, hb, -⟩ := randAugIndex_case4 (show i0 + 3 ≤ i1 by omega) hr0 hr1
    exact ⟨ha, hb⟩

/-- Witness for C2 at `(i0, i1) = (0, 5)` with the zero stream. -/
theorem randAugIndex_contract_witness :
    ((0 : Int) ≤ (randAugIndex dsZero 0 0 5).1 ∧ (randAugIndex dsZero 0 0 5).1 ≤ 5) ∧
    ((5 : Int) - 0 = 0 ∨ (5 : Int) - 0 = 1 → randAugIndex dsZero 0 0 5 = (0, 0)) ∧
    ((5 : Int) - 0 = 2 → randAugIndex dsZero 0 0 5 = (0 + 1, 0)) ∧
    (3 ≤ (5 : Int) - 0 → 0 < (randAugIndex dsZero 0 0 5).1 ∧
      (randAugIndex dsZero 0 0 5).1 < 5) :=
  randAugIndex_contract dsZero 0 0 5 (by norm_num)
    (by norm_num [dsZero]) (by norm_num [dsZero])

end AugDS

namespace AugDS

theorem colInterpLoop_spec {W H : Nat} {i y0 y1 : Int} {a b : Int}
    (hi0 : 0 ≤ i) (hi1 : i < (W : Int)) (hy00 : 0 ≤ y0) (hy11 : y1 < (H : Int)) :
    ∀ (k : Nat) (g : Grid) (y : Int),
      Rect g W H → y0 < y → y + (k : Int) = y1 →
      pyGet2 g i y0 = some a → pyGet2 g i y1 = some b →
      ∃ g', colInterpLoop i y0 y1 k g y = some g' ∧ Rect g' W H ∧
        (∀ q : Int, y ≤ q → q < y1 →
          pyGet2 g' i q = some (pyInt ((a : ℚ) +
            ((b : ℚ) - (a : ℚ)) * ((q : ℚ) - (y0 : ℚ)) / ((y1 : ℚ) - (y0 : ℚ))))) ∧
        (∀ p q : Int, 0 ≤ p → 0 ≤ q → ¬(p = i ∧ y ≤ q ∧ q < y1) →
          pyGet2 g' p q = pyGet2 g p q) := by
  intro k
  induction k with
  | zero =>
    intro g y hg hy hyk ha hb
    refine ⟨g, rfl, hg, ?_, ?_⟩
    · intro q hq1 hq2
      omega
    · intro p q _ _ _
      rfl
  | succ k ih =>
    intro g y hg hy hyk ha hb
    have hyy1 : y < y1 := by omega
    have hy0q : 0 ≤ y := by omega
    have hyH : y < (H : Int) := by omega
    have hy10 : 0 ≤ y1 := by omega
    obtain ⟨g1, hw1⟩ := pySet2_eq hg hi0 hi1 hy0q hyH
      (pyInt ((a : ℚ) + ((b : ℚ) - (a : ℚ)) * ((y : ℚ) - (y0 : ℚ)) / ((y1 : ℚ) - (y0 : ℚ))))
    obtain ⟨hg1, -, -, hv1, hfr1⟩ := pySet2_spec hg hi0 hy0q hw1
    have ha1 : pyGet2 g1 i y0 = some a :=
      (hfr1 i y0 hi0 hy00 (fun hc => by omega)).trans ha
    have hb1 : pyGet2 g1 i y1 = some b :=
      (hfr1 i y1 hi0 hy10 (fun hc => by omega)).trans hb
    obtain ⟨g2, hw2⟩ := pySet2_eq hg1 hi0 hi1 hy0q hyH
      (pyInt ((a : ℚ) + ((b : ℚ) - (a : ℚ)) * ((y : ℚ) - (y0 : ℚ)) / ((y1 : ℚ) - (y0 : ℚ))))
    obtain ⟨hg2, -, -, hv2, hfr2⟩ := pySet2_spec hg1 hi0 hy0q hw2
    have ha2 : pyGet2 g2 i y0 = some a :=
      (hfr2 i y0 hi0 hy00 (fun hc => by omega)).trans ha1
    have hb2 : pyGet2 g2 i y1 = some b :=
      (hfr2 i y1 hi0 hy10 (fun hc => by omega)).trans hb1
    obtain ⟨g', hrun, hrect', hint', hfr'⟩ :=
      ih g2 (y + 1) hg2 (by omega) (by omega) ha2 hb2
    refine ⟨g', ?_, hrect', ?_, ?_⟩
    · simp only [colInterpLoop]
      rw [ha, hb]
      simp only []
      rw [hw1]
      simp only []
      rw [ha1, hb1]
      simp only []
      rw [hw2]
      exact hrun
    · intro q hq1 hq2
      by_cases hqy : q = y
      · subst hqy
        have : pyGet2 g' i q = pyGet2 g2 i q :=
          hfr' i q hi0 (by omega) (fun hc => by omega)
        rw [this, hv2]
      · exact hint' q (by omega) hq2
    · intro p q hp0 hq0 hpq
      have h1 : pyGet2 g' p q = pyGet2 g2 p q :=
        hfr' p q hp0 hq0 (fun hc => hpq ⟨hc.1, by omega, hc.2.2⟩)
      have h2 : pyGet2 g2 p q = pyGet2 g1 p q :=
        hfr2 p q hp0 hq0 (fun hc => hpq ⟨hc.1, by omega, by omega⟩)
      have h3 : pyGet2 g1 p q = pyGet2 g p q :=
        hfr1 p q hp0 hq0 (fun hc => hpq ⟨hc.1, by omega, by omega⟩)
      rw [h1, h2, h3]

end AugDS

namespace AugDS

theorem rowInterpLoop_spec {W H : Nat} {j x0 x1 : Int}
    (hj0 : 0 ≤ j) (hj1 : j < (H : Int)) (hx00 : 0 ≤ x0) (hx11 : x1 < (W : Int)) :
    ∀ (k : Nat) (g : Grid) (x : Int),
      Rect g W H → x0 < x → x + (k : Int) = x1 →
      ∃ g', rowInterpLoop j x0 x1 k g x = some g' ∧ Rect g' W H ∧
        (∀ p q : Int, 0 ≤ p → 0 ≤ q → ¬(x ≤ p ∧ p < x1 ∧ q = j) →
          pyGet2 g' p q = pyGet2 g p q) := by
  intro k
  induction k with
  | zero =>
    intro g x hg hx hxk
    exact ⟨g, rfl, hg, fun p q _ _ _ => rfl⟩
  | succ k ih =>
    intro g x hg hx hxk
    have hxx1 : x < x1 := by omega
    have hx0q : 0 ≤ x := by omega
    have hxW : x < (W : Int) := by omega
    obtain ⟨a, ha⟩ := pyGet2_eq hg hx00 (by omega) hj0 hj1
    obtain ⟨b, hb⟩ := pyGet2_eq hg (show (0:Int) ≤ x1 by omega) hx11 hj0 hj1
    obtain ⟨g1, hw1⟩ := pySet2_eq hg hx0q hxW hj0 hj1
      (pyInt ((a : ℚ) + ((a : ℚ) - (b : ℚ)) * ((x : ℚ) - (x0 : ℚ)) / ((x1 : ℚ) - (x0 : ℚ))))
    obtain ⟨hg1, -, -, -, hfr1⟩ := pySet2_spec hg hx0q hj0 hw1
    obtain ⟨a1, ha1⟩ := pyGet2_eq hg1 hx00 (by omega) hj0 hj1
    obtain ⟨b1, hb1⟩ := pyGet2_eq hg1 (show (0:Int) ≤ x1 by omega) hx11 hj0 hj1
    obtain ⟨g2, hw2⟩ := pySet2_eq hg1 hx0q hxW hj0 hj1
      (pyInt ((a1 : ℚ) + ((a1 : ℚ) - (b1 : ℚ)) * ((x : ℚ) - (x0 : ℚ)) / ((x1 : ℚ) - (x0 : ℚ))))
    obtain ⟨hg2, -, -, -, hfr2⟩ := pySet2_spec hg1 hx0q hj0 hw2
    obtain ⟨g', hrun, hrect', hfr'⟩ := ih g2 (x + 1) hg2 (by omega) (by omega)
    refine ⟨g', ?_, hrect', ?_⟩
    · simp only [rowInterpLoop]
      rw [ha, hb]
      simp only []
      rw [hw1]
      simp only []
      rw [ha1, hb1]
      simp only []
      rw [hw2]
      exact hrun
    · intro p q hp0 hq0 hpq
      have h1 : pyGet2 g' p q = pyGet2 g2 p q :=
        hfr' p q hp0 hq0 (fun hc => hpq ⟨by omega, hc.2.1, hc.2.2⟩)
      have h2 : pyGet2 g2 p q = pyGet2 g1 p q :=
        hfr2 p q hp0 hq0 (fun hc => hpq ⟨by omega, by omega, hc.2⟩)
      have h3 : pyGet2 g1 p q = pyGet2 g p q :=
        hfr1 p q hp0 hq0 (fun hc => hpq ⟨by omega, by omega, hc.2⟩)
      rw [h1, h2, h3]

theorem colInterp_spec {W H : Nat} {g : Grid} {i y0 y1 : Int} {a b : Int}
    (hg : Rect g W H) (hi0 : 0 ≤ i) (hi1 : i < (W : Int))
    (hy0 : 0 ≤ y0) (hy01 : y0 ≤ y1) (hy1 : y1 < (H : Int))
    (ha : pyGet2 g i y0 = some a) (hb : pyGet2 g i y1 = some b) :
    ∃ g', colInterp g i y0 y1 = some g' ∧ Rect g' W H ∧
      (∀ q : Int, y0 < q → q < y1 →
        pyGet2 g' i q = some (pyInt ((a : ℚ) + ((b : ℚ) - (a : ℚ)) *
          ((q : ℚ) - (y0 : ℚ)) / ((y1 : ℚ) - (y0 : ℚ))))) ∧
      (∀ p q : Int, 0 ≤ p → 0 ≤ q → ¬(p = i ∧ y0 < q ∧ q < y1) →
        pyGet2 g' p q = pyGet2 g p q) := by
  by_cases hdeg : y1 ≤ y0 + 1
  · refine ⟨g, ?_, hg, ?_, ?_⟩
    · rw [colInterp, show (y1 - y0 - 1).toNat = 0 by omega]
      rfl
    · intro q h1 h2
      omega
    · intro p q _ _ _
      rfl
  · have hk : (y0 + 1) + (((y1 - y0 - 1).toNat : Nat) : Int) = y1 := by omega
    obtain ⟨g', h1, h2, h3, h4⟩ :=
      colInterpLoop_spec hi0 hi1 hy0 hy1 (y1 - y0 - 1).toNat g (y0 + 1) hg
        (by omega) hk ha hb
    exact ⟨g', h1, h2, fun q hq1 hq2 => h3 q (by omega) hq2,
      fun p q hp hq hpq => h4 p q hp hq (fun hc => hpq ⟨hc.1, by omega, hc.2.2⟩)⟩

theorem rowInterp_spec {W H : Nat} {g : Grid} {x0 x1 j : Int}
    (hg : Rect g W H) (hx0 : 0 ≤ x0) (hx01 : x0 ≤ x1) (hx1 : x1 < (W : Int))
    (hj0 : 0 ≤ j) (hj1 : j < (H : Int)) :
    ∃ g', rowInterp g x0 x1 j = some g' ∧ Rect g' W H ∧
      (∀ p q : Int, 0 ≤ p → 0 ≤ q → ¬(x0 < p ∧ p < x1 ∧ q = j) →
        pyGet2 g' p q = pyGet2 g p q) := by
  by_cases hdeg : x1 ≤ x0 + 1
  · refine ⟨g, ?_, hg, ?_⟩
    · rw [rowInterp, show (x1 - x0 - 1).toNat = 0 by omega]
      rfl
    · intro p q _ _ _
      rfl
  · have hk : (x0 + 1) + (((x1 - x0 - 1).toNat : Nat) : Int) = x1 := by omega
    obtain ⟨g', h1, h2, h3⟩ :=
      rowInterpLoop_spec hj0 hj1 hx0 hx1 (x1 - x0 - 1).toNat g (x0 + 1) hg
        (by omega) hk
    exact ⟨g', h1, h2,
      fun p q hp hq hpq => h3 p q hp hq (fun hc => hpq ⟨by omega, hc.2.1, hc.2.2⟩)⟩

theorem Diamond_spec {W H : Nat} (ds : DrawStream) {g : Grid} (n : Nat)
    {x0 y0 x1 y1 i j : Int} (hg : Rect g W H)
    (hx00 : 0 ≤ x0) (hx01 : x0 ≤ x1) (hx11 : x1 < (W : Int))
    (hy00 : 0 ≤ y0) (hy01 : y0 ≤ y1) (hy11 : y1 < (H : Int))
    (hi : x0 < i ∧ i < x1) (hj : y0 < j ∧ j < y1) :
    ∃ g', Diamond ds g n x0 y0 x1 y1 i j = some (g', n + 1) ∧ Rect g' W H ∧
      ∀ p q : Int, 0 ≤ p → 0 ≤ q → ¬(p = i ∧ q = j) →
        pyGet2 g' p q = pyGet2 g p q := by
  obtain ⟨v1, h1⟩ := pyGet2_eq hg hx00 (by omega) hy00 (by omega)
  obtain ⟨v2, h2⟩ := pyGet2_eq hg (show (0:Int) ≤ x1 by omega) hx11 hy00 (by omega)
  obtain ⟨v3, h3⟩ := pyGet2_eq hg hx00 (by omega) (show (0:Int) ≤ y1 by omega) hy11
  obtain ⟨v4, h4⟩ := pyGet2_eq hg (show (0:Int) ≤ x1 by omega) hx11
    (show (0:Int) ≤ y1 by omega) hy11
  obtain ⟨g', hw⟩ := pySet2_eq hg (show (0:Int) ≤ i by omega) (by omega)
    (show (0:Int) ≤ j by omega) (by omega)
    ((dev ds n x0 y0 x1 y1).1 + pyInt (((v1 : ℚ) + v2 + v3 + v4) / 4))
  obtain ⟨hg', -, -, -, hfr⟩ :=
    pySet2_spec hg (show (0:Int) ≤ i by omega) (show (0:Int) ≤ j by omega) hw
  refine ⟨g', ?_, hg', hfr⟩
  simp only [Diamond]
  rw [h1, h2, h3, h4]
  simp only []
  rw [hw]
  rfl

theorem Square_spec {W H : Nat} (ds : DrawStream) {g : Grid} (n : Nat)
    {x0 y0 x1 y1 i j : Int} (hg : Rect g W H)
    (hx00 : 0 ≤ x0) (hx01 : x0 ≤ x1) (hx11 : x1 < (W : Int))
    (hy00 : 0 ≤ y0) (hy01 : y0 ≤ y1) (hy11 : y1 < (H : Int))
    (hi : x0 < i ∧ i < x1) (hj : y0 < j ∧ j < y1) :
    ∃ g', Square ds g n x0 y0 x1 y1 i j = some (g', n + 4) ∧ Rect g' W H ∧
      ∀ p q : Int, 0 ≤ p → 0 ≤ q →
        ¬((p = x0 ∧ q = j) ∨ (p = x1 ∧ q = j) ∨ (p = i ∧ q = y0) ∨
          (p = i ∧ q = y1)) →
        pyGet2 g' p q = pyGet2 g p q := by
  have hi0 : (0:Int) ≤ i := by omega
  have hj0 : (0:Int) ≤ j := by omega
  have hiW : i < (W : Int) := by omega
  have hjH : j < (H : Int) := by omega
  have hx10 : (0:Int) ≤ x1 := by omega
  have hy10 : (0:Int) ≤ y1 := by omega
  obtain ⟨a1, ha1⟩ := pyGet2_eq hg hx00 (by omega) hy00 (by omega)
  obtain ⟨b1, hb1⟩ := pyGet2_eq hg hx00 (by omega) hy10 hy11
  obtain ⟨c1, hc1⟩ := pyGet2_eq hg hi0 hiW hj0 hjH
  obtain ⟨g1, hw1⟩ := pySet2_eq hg hx00 (by omega) hj0 hjH
    ((dev ds n y0 y0 y1 y1).1 + pyInt (((a1 : ℚ) + b1 + c1) / 3))
  obtain ⟨hg1, -, -, -, hfr1⟩ := pySet2_spec hg hx00 hj0 hw1
  obtain ⟨a2, ha2⟩ := pyGet2_eq hg1 hx10 hx11 hy00 (by omega)
  obtain ⟨b2, hb2⟩ := pyGet2_eq hg1 hx10 hx11 hy10 hy11
  obtain ⟨c2, hc2⟩ := pyGet2_eq hg1 hi0 hiW hj0 hjH
  obtain ⟨g2, hw2⟩ := pySet2_eq hg1 hx10 hx11 hj0 hjH
    ((dev ds (dev ds n y0 y0 y1 y1).2 y0 y0 y1 y1).1 +
      pyInt (((a2 : ℚ) + b2 + c2) / 3))
  obtain ⟨hg2, -, -, -, hfr2⟩ := pySet2_spec hg1 hx10 hj0 hw2
  obtain ⟨a3, ha3⟩ := pyGet2_eq hg2 hx00 (by omega) hy00 (by omega)
  obtain ⟨b3, hb3⟩ := pyGet2_eq hg2 hx10 hx11 hy00 (by omega)
  obtain ⟨c3, hc3⟩ := pyGet2_eq hg2 hi0 hiW hj0 hjH
  obtain ⟨g3, hw3⟩ := pySet2_eq hg2 hi0 hiW hy00 (by omega)
    ((dev ds (dev ds (dev ds n y0 y0 y1 y1).2 y0 y0 y1 y1).2 x0 x0 x1 x1).1 +
      pyInt (((a3 : ℚ) + b3 + c3) / 3))
  obtain ⟨hg3, -, -, -, hfr3⟩ := pySet2_spec hg2 hi0 hy00 hw3
  obtain ⟨a4, ha4⟩ := pyGet2_eq hg3 hx00 (by omega) hy10 hy11
  obtain ⟨b4, hb4⟩ := pyGet2_eq hg3 hx10 hx11 hy10 hy11
  obtain ⟨c4, hc4⟩ := pyGet2_eq hg3 hi0 hiW hj0 hjH
  obtain ⟨g4, hw4⟩ := pySet2_eq hg3 hi0 hiW hy10 hy11
    ((dev ds (dev ds (dev ds (dev ds n y0 y0 y1 y1).2 y0 y0 y1 y1).2
        x0 x0 x1 x1).2 x0 x0 x1 x1).1 +
      pyInt (((a4 : ℚ) + b4 + c4) / 3))
  obtain ⟨hg4, -, -, -, hfr4⟩ := pySet2_spec hg3 hi0 hy10 hw4
  refine ⟨g4, ?_, hg4, ?_⟩
  · simp only [Square]
    rw [ha1, hb1, hc1]
    simp only []
    rw [hw1]
    simp only []
    rw [ha2, hb2, hc2]
    simp only []
    rw [hw2]
    simp only []
    rw [ha3, hb3, hc3]
    simp only []
    rw [hw3]
    simp only []
    rw [ha4, hb4, hc4]
    simp only []
    rw [hw4]
    rfl
  · intro p q hp0 hq0 hpq
    have h4 : pyGet2 g4 p q = pyGet2 g3 p q :=
      hfr4 p q hp0 hq0 (fun hc => hpq (Or.inr (Or.inr (Or.inr hc))))
    have h3 : pyGet2 g3 p q = pyGet2 g2 p q :=
      hfr3 p q hp0 hq0 (fun hc => hpq (Or.inr (Or.inr (Or.inl hc))))
    have h2 : pyGet2 g2 p q = pyGet2 g1 p q :=
      hfr2 p q hp0 hq0 (fun hc => hpq (Or.inr (Or.inl hc)))
    have h1 : pyGet2 g1 p q = pyGet2 g p q :=
      hfr1 p q hp0 hq0 (fun hc => hpq (Or.inl hc))
    rw [h4, h3, h2, h1]

end AugDS

namespace AugDS

theorem Touch_mono {x0 y0 x1 y1 u v u' v' p q : Int}
    (hu : x0 ≤ u) (hu' : u' ≤ x1) (hv : y0 ≤ v) (hv' : v' ≤ y1)
    (h : Touch u v u' v' p q) : Touch x0 y0 x1 y1 p q := by
  rcases h with ⟨h1, h2, h3, h4⟩ | ⟨h1, h2, h3, h4⟩
  · exact Or.inl ⟨by omega, by omega, by omega, by omega⟩
  · exact Or.inr ⟨by omega, by omega, by omega, by omega⟩

theorem auxRandAugDS_spec {W H : Nat} {ds : DrawStream} (hds : RatsValid ds) :
    ∀ (fuel : Nat) (g : Grid) (n : Nat) (x0 y0 x1 y1 : Int),
      Rect g W H →
      0 ≤ x0 → x0 ≤ x1 → x1 < (W : Int) →
      0 ≤ y0 → y0 ≤ y1 → y1 < (H : Int) →
      (x1 - x0) + (y1 - y0) < (fuel : Int) →
      ∃ g' n', auxRandAugDS ds fuel g n x0 y0 x1 y1 = .ok (g', n') ∧
        Rect g' W H ∧
        ∀ p q : Int, 0 ≤ p → 0 ≤ q → ¬Touch x0 y0 x1 y1 p q →
          pyGet2 g' p q = pyGet2 g p q := by
  intro fuel
  induction fuel with
  | zero =>
    intro g n x0 y0 x1 y1 _ _ _ _ _ _ _ hf
    omega
  | succ fuel ih =>
    intro g n x0 y0 x1 y1 hg hx00 hx01 hx11 hy00 hy01 hy11 hf
    by_cases hterm : x0 = x1 ∧ y0 = y1
    · refine ⟨g, n, ?_, hg, fun p q _ _ _ => rfl⟩
      simp only [auxRandAugDS, if_pos hterm]
    · obtain ⟨hi0, hi1⟩ := randAugIndex_mem hx01 (hds n).1 (hds n).2
      set i := (randAugIndex ds n x0 x1).1 with hIdef
      set n1 := (randAugIndex ds n x0 x1).2 with hN1def
      obtain ⟨hj0, hj1⟩ := randAugIndex_mem hy01 (hds n1).1 (hds n1).2
      set j := (randAugIndex ds n1 y0 y1).1 with hJdef
      set n2 := (randAugIndex ds n1 y0 y1).2 with hN2def
      by_cases hcol : i = x0 ∨ i = x1
      · obtain ⟨a, ha⟩ := pyGet2_eq hg (show (0:Int) ≤ i by omega) (by omega)
          hy00 (by omega)
        obtain ⟨b, hb⟩ := pyGet2_eq hg (show (0:Int) ≤ i by omega) (by omega)
          (show (0:Int) ≤ y1 by omega) hy11
        obtain ⟨g', hrun, hrect, hval, hfr⟩ :=
          colInterp_spec hg (show (0:Int) ≤ i by omega) (by omega) hy00 hy01
            hy11 ha hb
        refine ⟨g', n2, ?_, hrect, ?_⟩
        · simp only [auxRandAugDS, if_neg hterm]
          rw [← hIdef, ← hN1def, ← hJdef, ← hN2def, if_pos hcol, hrun]
        · intro p q hp0 hq0 hpq
          refine hfr p q hp0 hq0 (fun hc => hpq ?_)
          exact Or.inl ⟨by omega, by omega, hc.2.1, hc.2.2⟩
      · by_cases hrow : j = y0 ∨ j = y1
        · obtain ⟨g', hrun, hrect, hfr⟩ :=
            rowInterp_spec hg hx00 hx01 hx11 (show (0:Int) ≤ j by omega)
              (by omega)
          refine ⟨g', n2, ?_, hrect, ?_⟩
          · simp only [auxRandAugDS, if_neg hterm]
            rw [← hIdef, ← hN1def, ← hJdef, ← hN2def, if_neg hcol,
              if_pos hrow, hrun]
          · intro p q hp0 hq0 hpq
            refine hfr p q hp0 hq0 (fun hc => hpq ?_)
            exact Or.inr ⟨hc.1, hc.2.1, by omega, by omega⟩
        · have hii : x0 < i ∧ i < x1 := by omega
          have hjj : y0 < j ∧ j < y1 := by omega
          obtain ⟨gD, hD, hgD, hfrD⟩ :=
            Diamond_spec ds n2 hg hx00 hx01 hx11 hy00 hy01
              hy11 hii hjj
          obtain ⟨gS, hS, hgS, hfrS⟩ :=
            Square_spec ds (n2 + 1) hgD hx00 hx01 hx11 hy00
              hy01 hy11 hii hjj
          obtain ⟨gA, nA, hA, hgA, hfrA⟩ :=
            ih gS (n2 + 1 + 4) x0 y0 i j hgS hx00 (by omega) (by omega)
              hy00 (by omega) (by omega) (by omega)
          obtain ⟨gB, nB, hB, hgB, hfrB⟩ :=
            ih gA nA x0 j i y1 hgA hx00 (by omega) (by omega)
              (by omega) (by omega) hy11 (by omega)
          obtain ⟨gC, nC, hC, hgC, hfrC⟩ :=
            ih gB nB i y0 x1 j hgB (by omega) (by omega) hx11
              hy00 (by omega) (by omega) (by omega)
          obtain ⟨gE, nE, hE, hgE, hfrE⟩ :=
            ih gC nC i j x1 y1 hgC (by omega) (by omega) hx11
              (by omega) (by omega) hy11 (by omega)
          refine ⟨gE, nE, ?_, hgE, ?_⟩
          · simp only [auxRandAugDS, if_neg hterm]
            rw [← hIdef, ← hN1def, ← hJdef, ← hN2def, if_neg hcol,
              if_neg hrow, hD]
            simp only []
            rw [hS]
            simp only []
            rw [hA]
            simp only []
            rw [hB]
            simp only []
            rw [hC]
            simp only []
            rw [hE]
          · intro p q hp0 hq0 hpq
            have hE' : pyGet2 gE p q = pyGet2 gC p q :=
              hfrE p q hp0 hq0 (fun hc => hpq (Touch_mono (by omega)
                le_rfl (by omega) le_rfl hc))
            have hC' : pyGet2 gC p q = pyGet2 gB p q :=
              hfrC p q hp0 hq0 (fun hc => hpq (Touch_mono (by omega)
                le_rfl le_rfl (by omega) hc))
            have hB' : pyGet2 gB p q = pyGet2 gA p q :=
              hfrB p q hp0 hq0 (fun hc => hpq (Touch_mono le_rfl
                (by omega) (by omega) le_rfl hc))
            have hA' : pyGet2 gA p q = pyGet2 gS p q :=
              hfrA p q hp0 hq0 (fun hc => hpq (Touch_mono le_rfl
                (by omega) le_rfl (by omega) hc))
            have hS' : pyGet2 gS p q = pyGet2 gD p q := by
              refine hfrS p q hp0 hq0 (fun hc => hpq ?_)
              rcases hc with ⟨h1, h2⟩ | ⟨h1, h2⟩ | ⟨h1, h2⟩ | ⟨h1, h2⟩
              · exact Or.inl ⟨by omega, by omega, by omega, by omega⟩
              · exact Or.inl ⟨by omega, by omega, by omega, by omega⟩
              · exact Or.inr ⟨by omega, by omega, by omega, by omega⟩
              · exact Or.inr ⟨by omega, by omega, by omega, by omega⟩
            have hD' : pyGet2 gD p q = pyGet2 g p q :=
              hfrD p q hp0 hq0 (fun hc =>
                hpq (Or.inl ⟨by omega, by omega, by omega, by omega⟩))
            rw [hE', hC', hB', hA', hS', hD']

end AugDS

namespace AugDS

theorem cleanupRow_spec {W H : Nat} {g : Grid} (hg : Rect g W H)
    (hW : 2 ≤ W) (hH : 2 ≤ H) {x : Int} (hx0 : 0 ≤ x) (hx1 : x < (W : Int)) :
    ∃ g', cleanupRow g x = some g' ∧ Rect g' W H := by
  have hH0 : (0 : Int) < H := by omega
  obtain ⟨c0, hc0⟩ := pyGet2_eq hg hx0 hx1 le_rfl hH0
  unfold cleanupRow
  rw [hc0]
  simp only [hg.1]
  have hstep1 : ∃ g1, (if c0 = 0 then
      (if 0 < x ∧ x < (W : Int) - 1 then
        match pyGet2 g (x - 1) 0, pyGet2 g x 1, pyGet2 g (x + 1) 0 with
        | some u, some v, some w =>
          pySet2 g x 0 (pyInt (((u : ℚ) + v + w) / 3))
        | _, _, _ => none
      else some g)
    else some g) = some g1 ∧ Rect g1 W H := by
    by_cases hc : c0 = 0
    · by_cases hgu : 0 < x ∧ x < (W : Int) - 1
      · obtain ⟨u, hu⟩ := pyGet2_eq hg (show (0:Int) ≤ x - 1 by omega)
          (by omega) le_rfl hH0
        obtain ⟨v, hv⟩ := pyGet2_eq hg hx0 hx1 (show (0:Int) ≤ 1 by norm_num)
          (by omega)
        obtain ⟨w, hw⟩ := pyGet2_eq hg (show (0:Int) ≤ x + 1 by omega)
          (by omega) le_rfl hH0
        obtain ⟨g1, hw1⟩ := pySet2_eq hg hx0 hx1 le_rfl hH0
          (pyInt (((u : ℚ) + v + w) / 3))
        refine ⟨g1, ?_, pySet2_rect hg hw1⟩
        rw [if_pos hc, if_pos hgu, hu, hv, hw]
        exact hw1
      · exact ⟨g, by rw [if_pos hc, if_neg hgu], hg⟩
    · exact ⟨g, by rw [if_neg hc], hg⟩
  obtain ⟨g1, hs1, hg1⟩ := hstep1
  rw [hs1]
  simp only []
  have hneg1 : pyGet2 g1 x (-1) = pyGet2 g1 x ((H : Int) - 1) := by
    have := pyGet2_negy hg1 (show (-1 : Int) < 0 by norm_num)
      (show (0:Int) ≤ -1 + (H : Int) by omega) x
    rw [this, show (-1 : Int) + (H : Int) = (H : Int) - 1 by omega]
  obtain ⟨c1, hc1⟩ := pyGet2_eq hg1 hx0 hx1 (show (0:Int) ≤ (H : Int) - 1 by omega)
    (by omega)
  rw [hneg1, hc1]
  simp only [hg1.1]
  by_cases hc : c1 = 0
  · by_cases hgu : 0 < x ∧ x < (W : Int) - 1
    · obtain ⟨u, hu⟩ := pyGet2_eq hg1 (show (0:Int) ≤ x - 1 by omega)
        (by omega) (show (0:Int) ≤ (H : Int) - 1 by omega) (by omega)
      obtain ⟨v, hv⟩ := pyGet2_eq hg1 hx0 hx1
        (show (0:Int) ≤ (H : Int) - 2 by omega) (by omega)
      obtain ⟨w, hw⟩ := pyGet2_eq hg1 (show (0:Int) ≤ x + 1 by omega)
        (by omega) (show (0:Int) ≤ (H : Int) - 1 by omega) (by omega)
      obtain ⟨g2, hw2⟩ := pySet2_eq hg1 hx0 hx1
        (show (0:Int) ≤ (H : Int) - 1 by omega) (by omega)
        (pyInt (((u : ℚ) + v + w) / 3))
      refine ⟨g2, ?_, pySet2_rect hg1 hw2⟩
      rw [if_pos hc, if_pos hgu]
      have e1 : pyGet2 g1 (x - 1) (-1) = some u := by
        rw [pyGet2_negy hg1 (by norm_num) (show (0:Int) ≤ -1 + (H : Int) by omega),
          show (-1 : Int) + (H : Int) = (H : Int) - 1 by omega]
        exact hu
      have e2 : pyGet2 g1 x (-2) = some v := by
        rw [pyGet2_negy hg1 (by norm_num) (show (0:Int) ≤ -2 + (H : Int) by omega),
          show (-2 : Int) + (H : Int) = (H : Int) - 2 by omega]
        exact hv
      have e3 : pyGet2 g1 (x + 1) (-1) = some w := by
        rw [pyGet2_negy hg1 (by norm_num) (show (0:Int) ≤ -1 + (H : Int) by omega),
          show (-1 : Int) + (H : Int) = (H : Int) - 1 by omega]
        exact hw
      rw [e1, e2, e3]
      simp only []
      rw [pySet2_negy hg1 (by norm_num) (show (0:Int) ≤ -1 + (H : Int) by omega),
        show (-1 : Int) + (H : Int) = (H : Int) - 1 by omega]
      exact hw2
    · exact ⟨g1, by rw [if_pos hc, if_neg hgu], hg1⟩
  · exact ⟨g1, by rw [if_neg hc], hg1⟩

end AugDS

namespace AugDS

theorem cleanupCol_spec {W H : Nat} {g : Grid} (hg : Rect g W H)
    (hW : 2 ≤ W) (hH : 2 ≤ H) {y : Int} (hy0 : 0 ≤ y) (hy1 : y < (H : Int)) :
    ∃ g', cleanupCol g y = some g' ∧ Rect g' W H := by
  have hW0 : (0 : Int) < W := by omega
  obtain ⟨c0, hc0⟩ := pyGet2_eq hg le_rfl hW0 hy0 hy1
  obtain ⟨r0, hr0, -, hr0len⟩ := pyGetRow_eq hg le_rfl hW0
  unfold cleanupCol
  rw [hc0]
  simp only []
  have hstep1 : ∃ g1, (if c0 = 0 then
      (if 0 < y then
        match pyGetRow g 0 with
        | none => none
        | some r0 =>
          if y < (r0.length : Int) - 1 then
            match pyGet2 g 0 (y - 1), pyGet2 g 1 y, pyGet2 g 0 (y + 1) with
            | some u, some v, some w =>
              pySet2 g 0 y (pyInt (((u : ℚ) + v + w) / 3))
            | _, _, _ => none
          else some g
      else some g)
    else some g) = some g1 ∧ Rect g1 W H := by
    by_cases hc : c0 = 0
    · by_cases hgu : 0 < y
      · rw [if_pos hc, if_pos hgu, hr0]
        simp only [hr0len]
        by_cases hgu2 : y < (H : Int) - 1
        · obtain ⟨u, hu⟩ := pyGet2_eq hg le_rfl hW0
            (show (0:Int) ≤ y - 1 by omega) (by omega)
          obtain ⟨v, hv⟩ := pyGet2_eq hg (show (0:Int) ≤ 1 by norm_num)
            (by omega) hy0 hy1
          obtain ⟨w, hw⟩ := pyGet2_eq hg le_rfl hW0
            (show (0:Int) ≤ y + 1 by omega) (by omega)
          obtain ⟨g1, hw1⟩ := pySet2_eq hg le_rfl hW0 hy0 hy1
            (pyInt (((u : ℚ) + v + w) / 3))
          refine ⟨g1, ?_, pySet2_rect hg hw1⟩
          rw [if_pos hgu2, hu, hv, hw]
          exact hw1
        · exact ⟨g, by rw [if_neg hgu2], hg⟩
      · exact ⟨g, by rw [if_pos hc, if_neg hgu], hg⟩
    · exact ⟨g, by rw [if_neg hc], hg⟩
  obtain ⟨g1, hs1, hg1⟩ := hstep1
  rw [hs1]
  simp only []
  have hneg1 : pyGet2 g1 (-1) y = pyGet2 g1 ((W : Int) - 1) y := by
    rw [pyGet2_negx hg1 (by norm_num) (show (0:Int) ≤ -1 + (W : Int) by omega),
      show (-1 : Int) + (W : Int) = (W : Int) - 1 by omega]
  obtain ⟨c1, hc1⟩ := pyGet2_eq hg1 (show (0:Int) ≤ (W : Int) - 1 by omega)
    (by omega) hy0 hy1
  obtain ⟨r1, hr1, -, hr1len⟩ := pyGetRow_eq hg1 le_rfl hW0
  rw [hneg1, hc1]
  simp only []
  by_cases hc : c1 = 0
  · by_cases hgu : 0 < y
    · rw [if_pos hc, if_pos hgu, hr1]
      simp only [hr1len]
      by_cases hgu2 : y < (H : Int) - 1
      · obtain ⟨u, hu⟩ := pyGet2_eq hg1 (show (0:Int) ≤ (W : Int) - 1 by omega)
          (by omega) (show (0:Int) ≤ y - 1 by omega) (by omega)
        obtain ⟨v, hv⟩ := pyGet2_eq hg1 (show (0:Int) ≤ (W : Int) - 2 by omega)
          (by omega) hy0 hy1
        obtain ⟨w, hw⟩ := pyGet2_eq hg1 (show (0:Int) ≤ (W : Int) - 1 by omega)
          (by omega) (show (0:Int) ≤ y + 1 by omega) (by omega)
        obtain ⟨g2, hw2⟩ := pySet2_eq hg1
          (show (0:Int) ≤ (W : Int) - 1 by omega) (by omega) hy0 hy1
          (pyInt (((u : ℚ) + v + w) / 3))
        refine ⟨g2, ?_, pySet2_rect hg1 hw2⟩
        have e1 : pyGet2 g1 (-1) (y - 1) = some u := by
          rw [pyGet2_negx hg1 (by norm_num)
            (show (0:Int) ≤ -1 + (W : Int) by omega),
            show (-1 : Int) + (W : Int) = (W : Int) - 1 by omega]
          exact hu
        have e2 : pyGet2 g1 (-2) y = some v := by
          rw [pyGet2_negx hg1 (by norm_num)
            (show (0:Int) ≤ -2 + (W : Int) by omega),
            show (-2 : Int) + (W : Int) = (W : Int) - 2 by omega]
          exact hv
        have e3 : pyGet2 g1 (-1) (y + 1) = some w := by
          rw [pyGet2_negx hg1 (by norm_num)
            (show (0:Int) ≤ -1 + (W : Int) by omega),
            show (-1 : Int) + (W : Int) = (W : Int) - 1 by omega]
          exact hw
        rw [if_pos hgu2, e1, e2, e3]
        simp only []
        rw [pySet2_negx hg1 (by norm_num)
          (show (0:Int) ≤ -1 + (W : Int) by omega),
          show (-1 : Int) + (W : Int) = (W : Int) - 1 by omega]
        exact hw2
      · exact ⟨g1, by rw [if_neg hgu2], hg1⟩
    · exact ⟨g1, by rw [if_pos hc, if_neg hgu], hg1⟩
  · exact ⟨g1, by rw [if_neg hc], hg1⟩

theorem cleanupRowsLoop_spec {W H : Nat} (hW : 2 ≤ W) (hH : 2 ≤ H) :
    ∀ (xs : List Int) (g : Grid), Rect g W H →
      (∀ x ∈ xs, 0 ≤ x ∧ x < (W : Int)) →
      ∃ g', cleanupRowsLoop g xs = some g' ∧ Rect g' W H := by
  intro xs
  induction xs with
  | nil => exact fun g hg _ => ⟨g, rfl, hg⟩
  | cons x xs ih =>
    intro g hg hmem
    obtain ⟨g1, h1, hg1⟩ := cleanupRow_spec hg hW hH (hmem x (by simp)).1
      (hmem x (by simp)).2
    obtain ⟨g', h2, hg'⟩ := ih g1 hg1 (fun z hz => hmem z (by simp [hz]))
    refine ⟨g', ?_, hg'⟩
    rw [cleanupRowsLoop, h1]
    simp only []
    exact h2

theorem cleanupColsLoop_spec {W H : Nat} (hW : 2 ≤ W) (hH : 2 ≤ H) :
    ∀ (ys : List Int) (g : Grid), Rect g W H →
      (∀ y ∈ ys, 0 ≤ y ∧ y < (H : Int)) →
      ∃ g', cleanupColsLoop g ys = some g' ∧ Rect g' W H := by
  intro ys
  induction ys with
  | nil => exact fun g hg _ => ⟨g, rfl, hg⟩
  | cons y ys ih =>
    intro g hg hmem
    obtain ⟨g1, h1, hg1⟩ := cleanupCol_spec hg hW hH (hmem y (by simp)).1
      (hmem y (by simp)).2
    obtain ⟨g', h2, hg'⟩ := ih g1 hg1 (fun z hz => hmem z (by simp [hz]))
    refine ⟨g', ?_, hg'⟩
    rw [cleanupColsLoop, h1]
    simp only []
    exact h2

theorem intRange_mem {n : Nat} {x : Int} (h : x ∈ intRange n) :
    0 ≤ x ∧ x < (n : Int) := by
  rw [intRange, List.mem_map] at h
  obtain ⟨k, hk, rfl⟩ := h
  rw [List.mem_range] at hk
  omega

theorem edgeCleanup_some {W H : Nat} {g : Grid} (hg : Rect g W H)
    (hW : 2 ≤ W) (hH : 2 ≤ H) :
    ∃ g', edgeCleanup g = some g' ∧ Rect g' W H := by
  obtain ⟨g1, h1, hg1⟩ := cleanupRowsLoop_spec hW hH (intRange g.length) g hg
    (fun x hx => by
      have := intRange_mem hx
      rw [hg.1] at this
      exact this)
  obtain ⟨r0, hr0, -, hr0len⟩ := pyGetRow_eq hg1 le_rfl
    (show (0:Int) < (W:Int) by omega)
  obtain ⟨g', h2, hg'⟩ := cleanupColsLoop_spec hW hH (intRange r0.length) g1 hg1
    (fun y hy => by
      have := intRange_mem hy
      rw [hr0len] at this
      exact this)
  refine ⟨g', ?_, hg'⟩
  rw [edgeCleanup, h1]
  simp only []
  rw [hr0]
  simp only []
  exact h2

end AugDS

namespace AugDS

theorem cleanupRow_frame {W H : Nat} {g g' : Grid} (hg : Rect g W H)
    (hH : 1 ≤ H) {x : Int} (hx0 : 0 ≤ x) (hx1 : x < (W : Int))
    (h : cleanupRow g x = some g') :
    Rect g' W H ∧ ∀ p q : Int, 0 ≤ p → 0 ≤ q →
      (p ≠ x ∨ ¬(0 < x ∧ x < (W : Int) - 1)) →
      pyGet2 g' p q = pyGet2 g p q := by
  obtain ⟨c0, hc0⟩ := pyGet2_eq hg hx0 hx1 le_rfl (by omega)
  unfold cleanupRow at h
  rw [hc0] at h
  simp only [hg.1] at h
  have hstep1 : ∀ g1, (if c0 = 0 then
      (if 0 < x ∧ x < (W : Int) - 1 then
        match pyGet2 g (x - 1) 0, pyGet2 g x 1, pyGet2 g (x + 1) 0 with
        | some u, some v, some w =>
          pySet2 g x 0 (pyInt (((u : ℚ) + v + w) / 3))
        | _, _, _ => none
      else some g)
    else some g) = some g1 →
      Rect g1 W H ∧ ∀ p q : Int, 0 ≤ p → 0 ≤ q →
        (p ≠ x ∨ ¬(0 < x ∧ x < (W : Int) - 1)) →
        pyGet2 g1 p q = pyGet2 g p q := by
    intro g1 hs
    by_cases hc : c0 = 0
    · rw [if_pos hc] at hs
      by_cases hgu : 0 < x ∧ x < (W : Int) - 1
      · rw [if_pos hgu] at hs
        cases h1 : pyGet2 g (x - 1) 0 with
        | none => rw [h1] at hs; simp at hs
        | some u =>
        cases h2 : pyGet2 g x 1 with
        | none => rw [h1, h2] at hs; simp at hs
        | some v =>
        cases h3 : pyGet2 g (x + 1) 0 with
        | none => rw [h1, h2, h3] at hs; simp at hs
        | some w =>
        rw [h1, h2, h3] at hs
        simp only [] at hs
        obtain ⟨hg1, -, -, -, hfr⟩ := pySet2_spec hg hx0 le_rfl hs
        refine ⟨hg1, fun p q hp0 hq0 hside => ?_⟩
        rcases hside with hpx | hng
        · exact hfr p q hp0 hq0 (fun hc' => hpx hc'.1)
        · exact absurd hgu hng
      · rw [if_neg hgu] at hs
        cases hs
        exact ⟨hg, fun p q _ _ _ => rfl⟩
    · rw [if_neg hc] at hs
      cases hs
      exact ⟨hg, fun p q _ _ _ => rfl⟩
  revert h
  cases hs1 : (if c0 = 0 then
      (if 0 < x ∧ x < (W : Int) - 1 then
        match pyGet2 g (x - 1) 0, pyGet2 g x 1, pyGet2 g (x + 1) 0 with
        | some u, some v, some w =>
          pySet2 g x 0 (pyInt (((u : ℚ) + v + w) / 3))
        | _, _, _ => none
      else some g)
    else some g) with
  | none => intro h; simp at h
  | some g1 =>
  intro h
  simp only [] at h
  obtain ⟨hg1, hfr1⟩ := hstep1 g1 hs1
  have hneg : pyGet2 g1 x (-1) = pyGet2 g1 x ((H : Int) - 1) := by
    rw [pyGet2_negy hg1 (by norm_num) (show (0:Int) ≤ -1 + (H : Int) by omega),
      show (-1 : Int) + (H : Int) = (H : Int) - 1 by omega]
  obtain ⟨c1, hc1⟩ := pyGet2_eq hg1 hx0 hx1
    (show (0:Int) ≤ (H : Int) - 1 by omega) (by omega)
  rw [hneg, hc1] at h
  simp only [hg1.1] at h
  by_cases hc : c1 = 0
  · rw [if_pos hc] at h
    by_cases hgu : 0 < x ∧ x < (W : Int) - 1
    · rw [if_pos hgu] at h
      cases h1 : pyGet2 g1 (x - 1) (-1) with
      | none => rw [h1] at h; simp at h
      | some u =>
      cases h2 : pyGet2 g1 x (-2) with
      | none => rw [h1, h2] at h; simp at h
      | some v =>
      cases h3 : pyGet2 g1 (x + 1) (-1) with
      | none => rw [h1, h2, h3] at h; simp at h
      | some w =>
      rw [h1, h2, h3] at h
      simp only [] at h
      rw [pySet2_negy hg1 (by norm_num)
        (show (0:Int) ≤ -1 + (H : Int) by omega),
        show (-1 : Int) + (H : Int) = (H : Int) - 1 by omega] at h
      obtain ⟨hg', -, -, -, hfr2⟩ := pySet2_spec hg1 hx0
        (show (0:Int) ≤ (H : Int) - 1 by omega) h
      refine ⟨hg', fun p q hp0 hq0 hside => ?_⟩
      have e2 : pyGet2 g' p q = pyGet2 g1 p q := by
        rcases hside with hpx | hng
        · exact hfr2 p q hp0 hq0 (fun hc' => hpx hc'.1)
        · exact absurd hgu hng
      rw [e2]
      exact hfr1 p q hp0 hq0 hside
    · rw [if_neg hgu] at h
      cases h
      exact ⟨hg1, hfr1⟩
  · rw [if_neg hc] at h
    cases h
    exact ⟨hg1, hfr1⟩

end AugDS

namespace AugDS

theorem cleanupCol_frame {W H : Nat} {g g' : Grid} (hg : Rect g W H)
    (hW : 1 ≤ W) {y : Int} (hy0 : 0 ≤ y) (hy1 : y < (H : Int))
    (h : cleanupCol g y = some g') :
    Rect g' W H ∧ ∀ p q : Int, 0 ≤ p → 0 ≤ q →
      (q ≠ y ∨ ¬(0 < y ∧ y < (H : Int) - 1)) →
      pyGet2 g' p q = pyGet2 g p q := by
  have hW0 : (0 : Int) < W := by omega
  obtain ⟨c0, hc0⟩ := pyGet2_eq hg le_rfl hW0 hy0 hy1
  obtain ⟨r0, hr0, -, hr0len⟩ := pyGetRow_eq hg le_rfl hW0
  unfold cleanupCol at h
  rw [hc0] at h
  simp only [] at h
  have hstep1 : ∀ g1, (if c0 = 0 then
      (if 0 < y then
        match pyGetRow g 0 with
        | none => none
        | some r0 =>
          if y < (r0.length : Int) - 1 then
            match pyGet2 g 0 (y - 1), pyGet2 g 1 y, pyGet2 g 0 (y + 1) with
            | some u, some v, some w =>
              pySet2 g 0 y (pyInt (((u : ℚ) + v + w) / 3))
            | _, _, _ => none
          else some g
      else some g)
    else some g) = some g1 →
      Rect g1 W H ∧ ∀ p q : Int, 0 ≤ p → 0 ≤ q →
        (q ≠ y ∨ ¬(0 < y ∧ y < (H : Int) - 1)) →
        pyGet2 g1 p q = pyGet2 g p q := by
    intro g1 hs
    by_cases hc : c0 = 0
    · rw [if_pos hc] at hs
      by_cases hgu : 0 < y
      · rw [if_pos hgu, hr0] at hs
        simp only [hr0len] at hs
        by_cases hgu2 : y < (H : Int) - 1
        · rw [if_pos hgu2] at hs
          cases h1 : pyGet2 g 0 (y - 1) with
          | none => rw [h1] at hs; simp at hs
          | some u =>
          cases h2 : pyGet2 g 1 y with
          | none => rw [h1, h2] at hs; simp at hs
          | some v =>
          cases h3 : pyGet2 g 0 (y + 1) with
          | none => rw [h1, h2, h3] at hs; simp at hs
          | some w =>
          rw [h1, h2, h3] at hs
          simp only [] at hs
          obtain ⟨hg1, -, -, -, hfr⟩ := pySet2_spec hg le_rfl hy0 hs
          refine ⟨hg1, fun p q hp0 hq0 hside => ?_⟩
          rcases hside with hqy | hng
          · exact hfr p q hp0 hq0 (fun hc' => hqy hc'.2)
          · exact absurd ⟨hgu, hgu2⟩ hng
        · rw [if_neg hgu2] at hs
          cases hs
          exact ⟨hg, fun p q _ _ _ => rfl⟩
      · rw [if_neg hgu] at hs
        cases hs
        exact ⟨hg, fun p q _ _ _ => rfl⟩
    · rw [if_neg hc] at hs
      cases hs
      exact ⟨hg, fun p q _ _ _ => rfl⟩
  revert h
  cases hs1 : (if c0 = 0 then
      (if 0 < y then
        match pyGetRow g 0 with
        | none => none
        | some r0 =>
          if y < (r0.length : Int) - 1 then
            match pyGet2 g 0 (y - 1), pyGet2 g 1 y, pyGet2 g 0 (y + 1) with
            | some u, some v, some w =>
              pySet2 g 0 y (pyInt (((u : ℚ) + v + w) / 3))
            | _, _, _ => none
          else some g
      else some g)
    else some g) with
  | none => intro h; simp at h
  | some g1 =>
  intro h
  simp only [] at h
  obtain ⟨hg1, hfr1⟩ := hstep1 g1 hs1
  have hneg : pyGet2 g1 (-1) y = pyGet2 g1 ((W : Int) - 1) y := by
    rw [pyGet2_negx hg1 (by norm_num) (show (0:Int) ≤ -1 + (W : Int) by omega),
      show (-1 : Int) + (W : Int) = (W : Int) - 1 by omega]
  obtain ⟨c1, hc1⟩ := pyGet2_eq hg1 (show (0:Int) ≤ (W : Int) - 1 by omega)
    (by omega) hy0 hy1
  obtain ⟨r1, hr1, -, hr1len⟩ := pyGetRow_eq hg1 le_rfl hW0
  rw [hneg, hc1] at h
  simp only [] at h
  by_cases hc : c1 = 0
  · rw [if_pos hc] at h
    by_cases hgu : 0 < y
    · rw [if_pos hgu, hr1] at h
      simp only [hr1len] at h
      by_cases hgu2 : y < (H : Int) - 1
      · rw [if_pos hgu2] at h
        cases h1 : pyGet2 g1 (-1) (y - 1) with
        | none => rw [h1] at h; simp at h
        | some u =>
        cases h2 : pyGet2 g1 (-2) y with
        | none => rw [h1, h2] at h; simp at h
        | some v =>
        cases h3 : pyGet2 g1 (-1) (y + 1) with
        | none => rw [h1, h2, h3] at h; simp at h
        | some w =>
        rw [h1, h2, h3] at h
        simp only [] at h
        rw [pySet2_negx hg1 (by norm_num)
          (show (0:Int) ≤ -1 + (W : Int) by omega),
          show (-1 : Int) + (W : Int) = (W : Int) - 1 by omega] at h
        obtain ⟨hg', -, -, -, hfr2⟩ := pySet2_spec hg1
          (show (0:Int) ≤ (W : Int) - 1 by omega) hy0 h
        refine ⟨hg', fun p q hp0 hq0 hside => ?_⟩
        have e2 : pyGet2 g' p q = pyGet2 g1 p q := by
          rcases hside with hqy | hng
          · exact hfr2 p q hp0 hq0 (fun hc' => hqy hc'.2)
          · exact absurd ⟨hgu, hgu2⟩ hng
        rw [e2]
        exact hfr1 p q hp0 hq0 hside
      · rw [if_neg hgu2] at h
        cases h
        exact ⟨hg1, hfr1⟩
    · rw [if_neg hgu] at h
      cases h
      exact ⟨hg1, hfr1⟩
  · rw [if_neg hc] at h
    cases h
    exact ⟨hg1, hfr1⟩

end AugDS

namespace AugDS

theorem cleanupRowsLoop_corner {W H : Nat} (hW : 1 ≤ W) (hH : 1 ≤ H) :
    ∀ (xs : List Int) (g g' : Grid), Rect g W H →
      (∀ x ∈ xs, 0 ≤ x ∧ x < (W : Int)) →
      cleanupRowsLoop g xs = some g' →
      Rect g' W H ∧ ∀ p q : Int,
        (p = 0 ∨ p = (W : Int) - 1) → (q = 0 ∨ q = (H : Int) - 1) →
        pyGet2 g' p q = pyGet2 g p q := by
  intro xs
  induction xs with
  | nil =>
    intro g g' hg _ h
    cases h
    exact ⟨hg, fun p q _ _ => rfl⟩
  | cons x xs ih =>
    intro g g' hg hmem h
    rw [cleanupRowsLoop] at h
    cases h1 : cleanupRow g x with
    | none => rw [h1] at h; simp at h
    | some g1 =>
    rw [h1] at h
    simp only [] at h
    obtain ⟨hg1, hfr1⟩ := cleanupRow_frame hg hH (hmem x (by simp)).1
      (hmem x (by simp)).2 h1
    obtain ⟨hg', hfr'⟩ := ih g1 g' hg1 (fun z hz => hmem z (by simp [hz])) h
    refine ⟨hg', fun p q hp hq => ?_⟩
    rw [hfr' p q hp hq]
    apply hfr1 p q (by omega) (by omega)
    by_cases hgu : 0 < x ∧ x < (W : Int) - 1
    · left
      omega
    · right
      exact hgu

theorem cleanupColsLoop_corner {W H : Nat} (hW : 1 ≤ W) (hH : 1 ≤ H) :
    ∀ (ys : List Int) (g g' : Grid), Rect g W H →
      (∀ y ∈ ys, 0 ≤ y ∧ y < (H : Int)) →
      cleanupColsLoop g ys = some g' →
      Rect g' W H ∧ ∀ p q : Int,
        (p = 0 ∨ p = (W : Int) - 1) → (q = 0 ∨ q = (H : Int) - 1) →
        pyGet2 g' p q = pyGet2 g p q := by
  intro ys
  induction ys with
  | nil =>
    intro g g' hg _ h
    cases h
    exact ⟨hg, fun p q _ _ => rfl⟩
  | cons y ys ih =>
    intro g g' hg hmem h
    rw [cleanupColsLoop] at h
    cases h1 : cleanupCol g y with
    | none => rw [h1] at h; simp at h
    | some g1 =>
    rw [h1] at h
    simp only [] at h
    obtain ⟨hg1, hfr1⟩ := cleanupCol_frame hg hW (hmem y (by simp)).1
      (hmem y (by simp)).2 h1
    obtain ⟨hg', hfr'⟩ := ih g1 g' hg1 (fun z hz => hmem z (by simp [hz])) h
    refine ⟨hg', fun p q hp hq => ?_⟩
    rw [hfr' p q hp hq]
    apply hfr1 p q (by omega) (by omega)
    by_cases hgu : 0 < y ∧ y < (H : Int) - 1
    · left
      omega
    · right
      exact hgu

theorem edgeCleanup_corner {W H : Nat} {g g' : Grid} (hg : Rect g W H)
    (hW : 1 ≤ W) (hH : 1 ≤ H) (h : edgeCleanup g = some g') :
    Rect g' W H ∧ ∀ p q : Int,
      (p = 0 ∨ p = (W : Int) - 1) → (q = 0 ∨ q = (H : Int) - 1) →
      pyGet2 g' p q = pyGet2 g p q := by
  unfold edgeCleanup at h
  cases h1 : cleanupRowsLoop g (intRange g.length) with
  | none => rw [h1] at h; simp at h
  | some g1 =>
  rw [h1] at h
  simp only [] at h
  cases h2 : pyGetRow g1 0 with
  | none => rw [h2] at h; simp at h
  | some r0 =>
  rw [h2] at h
  simp only [] at h
  obtain ⟨hg1, hfr1⟩ := cleanupRowsLoop_corner hW hH (intRange g.length) g g1 hg
    (fun x hx => by
      have := intRange_mem hx
      rw [hg.1] at this
      exact this) h1
  have hr0len : r0.length = H := hg1.2 r0 (pyGetRow_mem h2)
  obtain ⟨hg', hfr2⟩ := cleanupColsLoop_corner hW hH (intRange r0.length) g1 g'
    hg1
    (fun z hz => by
      have := intRange_mem hz
      rw [hr0len] at this
      exact this) h
  exact ⟨hg', fun p q hp hq => (hfr2 p q hp hq).trans (hfr1 p q hp hq)⟩

end AugDS

namespace AugDS

theorem randAugDS_run {W H : Nat} {ds : DrawStream} {g : Grid}
    (hg : Rect g W H) (hW : 1 ≤ W) (hH : 1 ≤ H) (hds : RatsValid ds) :
    ∃ gE nE, Rect gE W H ∧
      randAugDS ds g =
        (match edgeCleanup gE with
          | none => Except.error Err.oob
          | some gF => Except.ok (gF, nE)) ∧
      pyGet2 gE ((W : Int) - 1) ((H : Int) - 1) = some (ds.ints 3) ∧
      (2 ≤ W → 2 ≤ H →
        pyGet2 gE 0 0 = some (ds.ints 0) ∧
        pyGet2 gE 0 ((H : Int) - 1) = some (ds.ints 1) ∧
        pyGet2 gE ((W : Int) - 1) 0 = some (ds.ints 2)) := by
  have hW0 : (0 : Int) < W := by omega
  have hH0 : (0 : Int) < H := by omega
  have hW1 : (0 : Int) ≤ (W : Int) - 1 := by omega
  have hH1 : (0 : Int) ≤ (H : Int) - 1 := by omega
  obtain ⟨row0, hrow0, -, hrow0len⟩ := pyGetRow_eq hg le_rfl hW0
  obtain ⟨gA, hwA⟩ := pySet2_eq hg le_rfl hW0 le_rfl hH0 (ds.ints 0)
  obtain ⟨hgA, -, -, hvA, hfrA⟩ := pySet2_spec hg le_rfl le_rfl hwA
  obtain ⟨gB, hwB⟩ := pySet2_eq hgA le_rfl hW0 hH1 (by omega) (ds.ints 1)
  obtain ⟨hgB, -, -, hvB, hfrB⟩ := pySet2_spec hgA le_rfl hH1 hwB
  obtain ⟨gC, hwC⟩ := pySet2_eq hgB hW1 (by omega) le_rfl hH0 (ds.ints 2)
  obtain ⟨hgC, -, -, hvC, hfrC⟩ := pySet2_spec hgB hW1 le_rfl hwC
  obtain ⟨gD, hwD⟩ := pySet2_eq hgC hW1 (by omega) hH1 (by omega) (ds.ints 3)
  obtain ⟨hgD, -, -, hvD, hfrD⟩ := pySet2_spec hgC hW1 hH1 hwD
  obtain ⟨gE, nE, hauxeq, hgE, hfrE⟩ :=
    auxRandAugDS_spec hds (W + H + 1) gD 4 0 0 ((W : Int) - 1) ((H : Int) - 1)
      hgD le_rfl hW1 (by omega) le_rfl hH1 (by omega) (by push_cast; omega)
  have hnotouch : ∀ p q : Int,
      (p = 0 ∨ p = (W : Int) - 1) → (q = 0 ∨ q = (H : Int) - 1) →
      ¬Touch 0 0 ((W : Int) - 1) ((H : Int) - 1) p q := by
    intro p q hp hq hT
    rcases hT with ⟨h1, h2, h3, h4⟩ | ⟨h1, h2, h3, h4⟩ <;> omega
  refine ⟨gE, nE, hgE, ?_, ?_, ?_⟩
  · simp only [randAugDS, randint, Nat.zero_add, Nat.reduceAdd]
    rw [hrow0]
    simp only [hg.1, hrow0len]
    rw [hwA]
    simp only []
    rw [hwB]
    simp only []
    rw [hwC]
    simp only []
    rw [hwD]
    simp only []
    rw [hauxeq]
  · rw [hfrE _ _ hW1 hH1 (hnotouch _ _ (Or.inr rfl) (Or.inr rfl))]
    exact hvD
  · intro hW2 hH2
    refine ⟨?_, ?_, ?_⟩
    · rw [hfrE _ _ le_rfl le_rfl (hnotouch _ _ (Or.inl rfl) (Or.inl rfl))]
      rw [hfrD 0 0 le_rfl le_rfl (fun hc => by omega)]
      rw [hfrC 0 0 le_rfl le_rfl (fun hc => by omega)]
      rw [hfrB 0 0 le_rfl le_rfl (fun hc => by omega)]
      exact hvA
    · rw [hfrE _ _ le_rfl hH1 (hnotouch _ _ (Or.inl rfl) (Or.inr rfl))]
      rw [hfrD 0 _ le_rfl hH1 (fun hc => by omega)]
      rw [hfrC 0 _ le_rfl hH1 (fun hc => by omega)]
      exact hvB
    · rw [hfrE _ _ hW1 le_rfl (hnotouch _ _ (Or.inr rfl) (Or.inl rfl))]
      rw [hfrD _ 0 hW1 le_rfl (fun hc => by omega)]
      exact hvC

end AugDS

namespace AugDS


theorem pyInt_intCast (z : Int) : pyInt ((z : ℚ)) = z := by
  rw [pyInt]
  split
  · exact Int.floor_intCast z
  · exact Int.ceil_intCast z

theorem pyInt_eq_of_cast {q : ℚ} {z : Int} (h : q = (z : ℚ)) : pyInt q = z := by
  rw [h, pyInt_intCast]

theorem pyInt_pos {q : ℚ} {z : Int} (h0 : 0 ≤ q) (h1 : (z : ℚ) ≤ q)
    (h2 : q < z + 1) : pyInt q = z := by
  rw [pyInt, if_pos h0]
  exact Int.floor_eq_iff.mpr ⟨h1, h2⟩

/-- C1: the row-degenerate branch is NOT the symmetric linear interpolation
the specification states.  On region `(0,0)-(2,0)` with `grid[0][0] = 0`,
`grid[2][0] = 10`, the code's formula
`int(a + (a - b) * (x - x0) / (x1 - x0))` writes `-5` into `grid[1][0]`
(the branch still terminates with no recursion and no further draws:
counter stays 0), while the specified interpolation
`floor(a + (b - a) * (x - x0) / (x1 - x0))` gives `5`.  The code
contradicts its own "Interpolation - creates a slope" comment and the
column branch's formula: a code bug. -/
theorem rowDegenerate_bug :
    auxRandAugDS dsZero 5 [[0], [5], [10]] 0 0 0 2 0 =
      Except.ok ([[0], [-5], [10]], 0) ∧
    pyInt ((0 : ℚ) + ((10 : ℚ) - (0 : ℚ)) * ((1 : ℚ) - (0 : ℚ)) /
      ((2 : ℚ) - (0 : ℚ))) = 5 ∧
    (-5 : Int) ≠ 5 := by
  have hv : pyInt (((0 : Int) : ℚ) + (((0 : Int) : ℚ) - ((10 : Int) : ℚ)) *
      (((1 : Int) : ℚ) - ((0 : Int) : ℚ)) / (((2 : Int) : ℚ) - ((0 : Int) : ℚ))) =
      (-5 : Int) := by
    apply pyInt_eq_of_cast
    push_cast
    norm_num
  refine ⟨?_, ?_, by norm_num⟩
  · have h1 : auxRandAugDS dsZero 5 [[0], [5], [10]] 0 0 0 2 0 =
        Except.ok ([[0], [pyInt (((0 : Int) : ℚ) +
          (((0 : Int) : ℚ) - ((10 : Int) : ℚ)) *
          (((1 : Int) : ℚ) - ((0 : Int) : ℚ)) /
          (((2 : Int) : ℚ) - ((0 : Int) : ℚ)))], [10]], 0) := rfl
    rw [h1, hv]
  · apply pyInt_eq_of_cast
    push_cast
    norm_num

/-- C4: whenever the Driver takes the column-degenerate branch
(the selected `i` equals `x0` or `x1`, region not a single point), with
endpoint values `a = grid[i][y0]` and `b = grid[i][y1]`, the branch
returns at the draw counter left by the two midpoint selections (no
recursion, no further draws), every interior cell `grid[i][y]` with
`y0 < y < y1` equals `int(a + (b - a) * (y - y0) / (y1 - y0))`
(truncation toward zero), and no cell outside column `i` — nor any cell
of column `i` outside the open interval — is modified. -/
theorem colDegenerate_branch (ds : DrawStream) (g : Grid) (fuel n : Nat)
    (x0 y0 x1 y1 i j : Int) (n1 n2 : Nat) (a b : Int) {W H : Nat}
    (hg : Rect g W H)
    (hx00 : 0 ≤ x0) (hx01 : x0 ≤ x1) (hx11 : x1 < (W : Int))
    (hy00 : 0 ≤ y0) (hy01 : y0 ≤ y1) (hy11 : y1 < (H : Int))
    (hterm : ¬(x0 = x1 ∧ y0 = y1))
    (hI : randAugIndex ds n x0 x1 = (i, n1))
    (hJ : randAugIndex ds n1 y0 y1 = (j, n2))
    (hbranch : i = x0 ∨ i = x1)
    (ha : pyGet2 g i y0 = some a) (hb : pyGet2 g i y1 = some b) :
    ∃ g', auxRandAugDS ds (fuel + 1) g n x0 y0 x1 y1 = Except.ok (g', n2) ∧
      (∀ q : Int, y0 < q → q < y1 →
        pyGet2 g' i q = some (pyInt ((a : ℚ) + ((b : ℚ) - (a : ℚ)) *
          ((q : ℚ) - (y0 : ℚ)) / ((y1 : ℚ) - (y0 : ℚ))))) ∧
      (∀ p q : Int, 0 ≤ p → 0 ≤ q → p ≠ i →
        pyGet2 g' p q = pyGet2 g p q) ∧
      (∀ q : Int, 0 ≤ q → ¬(y0 < q ∧ q < y1) →
        pyGet2 g' i q = pyGet2 g i q) := by
  have hi0 : (0 : Int) ≤ i := by rcases hbranch with h | h <;> omega
  have hi1 : i < (W : Int) := by rcases hbranch with h | h <;> omega
  obtain ⟨g', hrun, hrect, hval, hfr⟩ :=
    colInterp_spec hg hi0 hi1 hy00 hy01 hy11 ha hb
  refine ⟨g', ?_, hval, ?_, ?_⟩
  · simp only [auxRandAugDS, if_neg hterm]
    rw [hI]
    simp only []
    rw [hJ]
    simp only []
    rw [if_pos hbranch, hrun]
  · intro p q hp0 hq0 hpi
    exact hfr p q hp0 hq0 (fun hc => hpi hc.1)
  · intro q hq0 hq
    exact hfr i q hi0 hq0 (fun hc => hq ⟨hc.2.1, hc.2.2⟩)

/-- Witness for C4: region `(0,0)-(0,2)` of the 1×3 grid `[[6, 0, 0]]`
with the zero stream; the branch consumes no draws and fills `grid[0][1]`
by the interpolation formula. -/
theorem colDegenerate_branch_witness :
    ∃ g', auxRandAugDS dsZero (4 + 1) [[6, 0, 0]] 0 0 0 0 2 =
        Except.ok (g', 0) ∧
      (∀ q : Int, 0 < q → q < 2 →
        pyGet2 g' 0 q = some (pyInt (((6 : Int) : ℚ) +
          (((0 : Int) : ℚ) - ((6 : Int) : ℚ)) *
          ((q : ℚ) - ((0 : Int) : ℚ)) / (((2 : Int) : ℚ) - ((0 : Int) : ℚ))))) ∧
      (∀ p q : Int, 0 ≤ p → 0 ≤ q → p ≠ 0 →
        pyGet2 g' p q = pyGet2 [[6, 0, 0]] p q) ∧
      (∀ q : Int, 0 ≤ q → ¬(0 < q ∧ q < 2) →
        pyGet2 g' 0 q = pyGet2 [[6, 0, 0]] 0 q) :=
  colDegenerate_branch dsZero [[6, 0, 0]] 4 0 0 0 0 2 0 1 0 0 6 0
    (W := 1) (H := 3) ⟨rfl, by decide⟩ (by norm_num) (by norm_num)
    (by norm_num) (by norm_num) (by norm_num) (by norm_num) (by norm_num)
    rfl rfl (Or.inl rfl) rfl rfl

/-- C6: for every well-formed region inside a rectangular grid and every
valid draw sequence (`random.random()` values in `[0,1)`), the Subdivision
Driver terminates: run with fuel exceeding the region's combined span it
returns a result, never exhausting the fuel, because in the general case
the chosen point is strictly interior on both axes and each of the four
sub-regions is strictly smaller than its parent. -/
theorem auxRandAugDS_terminates {W H : Nat} {ds : DrawStream}
    (hds : RatsValid ds) (fuel : Nat) (g : Grid) (n : Nat) (x0 y0 x1 y1 : Int)
    (hg : Rect g W H)
    (hx00 : 0 ≤ x0) (hx01 : x0 ≤ x1) (hx11 : x1 < (W : Int))
    (hy00 : 0 ≤ y0) (hy01 : y0 ≤ y1) (hy11 : y1 < (H : Int))
    (hfuel : (x1 - x0) + (y1 - y0) < (fuel : Int)) :
    ∃ g' n', auxRandAugDS ds fuel g n x0 y0 x1 y1 = Except.ok (g', n') := by
  obtain ⟨g', n', h, -, -⟩ := auxRandAugDS_spec hds fuel g n x0 y0 x1 y1 hg
    hx00 hx01 hx11 hy00 hy01 hy11 hfuel
  exact ⟨g', n', h⟩

/-- Witness for C6: the full region of a 2×2 zero grid with the zero
stream and fuel 3. -/
theorem auxRandAugDS_terminates_witness :
    ∃ g' n', auxRandAugDS dsZero 3 [[0, 0], [0, 0]] 0 0 0 1 1 =
      Except.ok (g', n') :=
  auxRandAugDS_terminates (W := 2) (H := 2)
    (fun n => ⟨le_rfl, by norm_num [dsZero]⟩) 3 [[0, 0], [0, 0]] 0 0 0 1 1
    ⟨rfl, by decide⟩ (by norm_num) (by norm_num) (by norm_num)
    (by norm_num) (by norm_num) (by norm_num) (by norm_num)

/-- C5 counterexample: the jagged grid `[[0], [0, 0]]` (rows of lengths 1
and 2) is accepted by the Entry Point, which runs to completion silently
(no error) and returns after 4 draws — contradicting the claim that
contract violations fail fast with an explicit error. -/
theorem randAugDS_jagged_silent :
    randAugDS dsZero [[0], [0, 0]] = Except.ok ([[0], [0, 0]], 4) := rfl

/-- C5 amended: the Entry Point performs no input validation.  `W = 0`
(no rows) and `H = 0` (an empty first row) happen to raise an IndexError
(modelled `.error .oob`) before any cell is written, because the code
reads `world_map[0]` and writes the corner `world_map[0][0]`; jagged grids
are not detected: some complete silently.  Fail-fast validation is a
re-implementation requirement, not behaviour of this code. -/
theorem randAugDS_no_validation :
    (∀ ds : DrawStream, randAugDS ds ([] : Grid) = Except.error Err.oob) ∧
    (∀ ds : DrawStream, randAugDS ds [([] : List Int)] = Except.error Err.oob) ∧
    (randAugDS dsZero [[0], [0, 0]]).isOk = true :=
  ⟨fun _ => rfl, fun _ => rfl, rfl⟩

/-- C7: determinism.  For a fixed grid (the caller's zero-initialized
W×H grid) two generation runs whose random sources produce identical draw
sequences return identical results, cell for cell: the computation is a
function of the draw stream and the grid alone. -/
theorem randAugDS_deterministic {W H : Nat} (ds1 ds2 : DrawStream) (g : Grid)
    (hg : Rect g W H) (hW : 1 ≤ W) (hH : 1 ≤ H)
    (hzero : ∀ p q : Int, 0 ≤ p → p < (W : Int) → 0 ≤ q → q < (H : Int) →
      pyGet2 g p q = some 0)
    (hints : ∀ n, ds1.ints n = ds2.ints n)
    (hrats : ∀ n, ds1.rats n = ds2.rats n) :
    randAugDS ds1 g = randAugDS ds2 g := by
  have heq : ds1 = ds2 := by
    cases ds1
    cases ds2
    simp only [DrawStream.mk.injEq]
    exact ⟨funext hints, funext hrats⟩
  rw [heq]

/-- Witness for C7: both runs with the zero stream on the 2×2 zero grid. -/
theorem randAugDS_deterministic_witness :
    randAugDS dsZero [[0, 0], [0, 0]] = randAugDS dsZero [[0, 0], [0, 0]] :=
  randAugDS_deterministic (W := 2) (H := 2) dsZero dsZero [[0, 0], [0, 0]]
    ⟨rfl, by decide⟩ (by norm_num) (by norm_num)
    (by
      intro p q h1 h2 h3 h4
      interval_cases p <;> interval_cases q <;> rfl)
    (fun _ => rfl) (fun _ => rfl)

/-- C9 (amended to W, H ≥ 2 for three of the corners): corner cells are
never overwritten by the Subdivision Driver or by Edge Cleanup.  For any
completed run on a rectangular W×H grid (W, H ≥ 1) with valid float
draws, the output cell `(W-1, H-1)` equals the fourth initialization draw,
and when W, H ≥ 2 (the four corners are distinct cells) the cells
`(0,0)`, `(0,H-1)`, `(W-1,0)` equal the first, second and third draws
respectively.  The claim's W = 1 / H = 1 cases are excluded: there the
corner cells coincide, so the initialization writes themselves overwrite
each other and the claimed cell-to-draw correspondence fails — see the
counterexample, where cell `(0,0)` of a 1×2 run ends holding draw 2. -/
theorem randAugDS_corners {W H : Nat} {ds : DrawStream} {g g' : Grid}
    {n : Nat} (hg : Rect g W H) (hW : 1 ≤ W) (hH : 1 ≤ H)
    (hds : RatsValid ds) (hrun : randAugDS ds g = Except.ok (g', n)) :
    pyGet2 g' ((W : Int) - 1) ((H : Int) - 1) = some (ds.ints 3) ∧
    (2 ≤ W → 2 ≤ H →
      pyGet2 g' 0 0 = some (ds.ints 0) ∧
      pyGet2 g' 0 ((H : Int) - 1) = some (ds.ints 1) ∧
      pyGet2 g' ((W : Int) - 1) 0 = some (ds.ints 2)) := by
  obtain ⟨gE, nE, hgE, heq, hc3, hc012⟩ := randAugDS_run hg hW hH hds
  rw [heq] at hrun
  cases hclean : edgeCleanup gE with
  | none => rw [hclean] at hrun; simp at hrun
  | some gF =>
  rw [hclean] at hrun
  simp only [Except.ok.injEq, Prod.mk.injEq] at hrun
  obtain ⟨hgF, -⟩ := hrun
  subst hgF
  obtain ⟨-, hcorner⟩ := edgeCleanup_corner hgE hW hH hclean
  constructor
  · rw [hcorner _ _ (Or.inr rfl) (Or.inr rfl)]
    exact hc3
  · intro hW2 hH2
    obtain ⟨h00, h01, h10⟩ := hc012 hW2 hH2
    refine ⟨?_, ?_, ?_⟩
    · rw [hcorner _ _ (Or.inl rfl) (Or.inl rfl)]
      exact h00
    · rw [hcorner _ _ (Or.inl rfl) (Or.inr rfl)]
      exact h01
    · rw [hcorner _ _ (Or.inr rfl) (Or.inl rfl)]
      exact h10

/-- Witness for C9: the completed run on the 2×2 zero grid with the zero
stream; every corner holds draw value 0. -/
theorem randAugDS_corners_witness :
    pyGet2 [[0, 0], [0, 0]] (((2 : Nat) : Int) - 1) (((2 : Nat) : Int) - 1) =
      some (dsZero.ints 3) ∧
    (2 ≤ 2 → 2 ≤ 2 →
      pyGet2 [[0, 0], [0, 0]] 0 0 = some (dsZero.ints 0) ∧
      pyGet2 [[0, 0], [0, 0]] 0 (((2 : Nat) : Int) - 1) = some (dsZero.ints 1) ∧
      pyGet2 [[0, 0], [0, 0]] (((2 : Nat) : Int) - 1) 0 = some (dsZero.ints 2)) :=
  randAugDS_corners (W := 2) (H := 2) (g := [[0, 0], [0, 0]])
    ⟨rfl, by decide⟩ (by norm_num)
    (by norm_num) (fun _ => ⟨le_rfl, by norm_num [dsZero]⟩) rfl

/-- C10 counterexample: on the 3×1 zero grid, with a perfectly valid draw
stream (all `randint(0, 2)` draws 0, all `random()` draws 0), the full run
performs an out-of-bounds access: Edge Cleanup reads `world_map[1][1]`
while repairing `world_map[1][0] == 0`, and row 1 has only one column. -/
theorem randAugDS_oob_3x1 :
    randAugDS dsZero [[0], [0], [0]] = Except.error Err.oob ∧
    RatsValid dsZero ∧ (∀ k : Nat, 0 ≤ dsZero.ints k ∧ dsZero.ints k ≤ 2) := by
  refine ⟨?_, fun _ => ⟨le_rfl, by norm_num [dsZero]⟩,
    fun _ => ⟨le_rfl, by norm_num [dsZero]⟩⟩
  have hv : pyInt (((0 : Int) : ℚ) + (((0 : Int) : ℚ) - ((0 : Int) : ℚ)) *
      (((1 : Int) : ℚ) - ((0 : Int) : ℚ)) / (((2 : Int) : ℚ) - ((0 : Int) : ℚ))) =
      (0 : Int) := by
    apply pyInt_eq_of_cast
    push_cast
    norm_num
  have h1 : randAugDS dsZero [[0], [0], [0]] =
      (match edgeCleanup [[0], [pyInt (((0 : Int) : ℚ) +
          (((0 : Int) : ℚ) - ((0 : Int) : ℚ)) *
          (((1 : Int) : ℚ) - ((0 : Int) : ℚ)) /
          (((2 : Int) : ℚ) - ((0 : Int) : ℚ)))], [0]] with
        | none => Except.error Err.oob
        | some gF => Except.ok (gF, 4)) := rfl
  rw [h1, hv]
  rfl

/-- C10 (amended to W, H ≥ 2): a full generation run on a rectangular
zero-initialized W×H grid with W, H ≥ 2 and a valid draw stream accesses
only in-bounds cells — it returns a rectangular result instead of the
IndexError marker.  (For W = 1 or H = 1 Edge Cleanup can read out of
bounds; see the counterexample.) -/
theorem randAugDS_inbounds {W H : Nat} {ds : DrawStream} {g : Grid}
    (hg : Rect g W H) (hW : 2 ≤ W) (hH : 2 ≤ H) (hds : RatsValid ds) :
    ∃ g' n, randAugDS ds g = Except.ok (g', n) ∧ Rect g' W H := by
  obtain ⟨gE, nE, hgE, heq, -, -⟩ := randAugDS_run hg (by omega) (by omega) hds
  obtain ⟨gF, hclean, hgF⟩ := edgeCleanup_some hgE hW hH
  refine ⟨gF, nE, ?_, hgF⟩
  rw [heq, hclean]

/-- Witness for C10's amended theorem: the 2×2 zero grid with the zero
stream. -/
theorem randAugDS_inbounds_witness :
    ∃ g' n, randAugDS dsZero [[0, 0], [0, 0]] = Except.ok (g', n) ∧
      Rect g' 2 2 :=
  randAugDS_inbounds (W := 2) (H := 2) ⟨rfl, by decide⟩ (by norm_num)
    (by norm_num) (fun _ => ⟨le_rfl, by norm_num [dsZero]⟩)

theorem edgeCleanup_grid33 (ds : DrawStream)
    (hdev : ∀ k : Nat, 4 ≤ k → k ≤ 8 → -2 ≤ ds.ints k ∧ ds.ints k ≤ 2) :
    edgeCleanup (grid33 ds) = some (grid33 ds) := by
  have hz : ∀ k : Nat, 4 ≤ k → k ≤ 8 →
      pyInt (HEIGHT_VARIATION_FACTOR * (ds.ints k : ℚ)) = 0 := by
    intro k h1 h2
    obtain ⟨hl, hr⟩ := hdev k h1 h2
    have hl' : (-2 : ℚ) ≤ (ds.ints k : ℚ) := by exact_mod_cast hl
    have hr' : (ds.ints k : ℚ) ≤ 2 := by exact_mod_cast hr
    apply pyInt_eq_zero
    · rw [HEIGHT_VARIATION_FACTOR]
      linarith
    · rw [HEIGHT_VARIATION_FACTOR]
      linarith
  have e1 : pyInt (((ds.ints 0 : ℚ) + (centre33 ds : ℚ) + (ds.ints 1 : ℚ)) / 3) =
      sq33 ds 5 (ds.ints 0) (ds.ints 1) := by
    rw [sq33, hz 5 (by norm_num) (by norm_num), zero_add]
    exact congrArg pyInt (by ring)
  have e2 : pyInt (((ds.ints 2 : ℚ) + (centre33 ds : ℚ) + (ds.ints 3 : ℚ)) / 3) =
      sq33 ds 6 (ds.ints 2) (ds.ints 3) := by
    rw [sq33, hz 6 (by norm_num) (by norm_num), zero_add]
    exact congrArg pyInt (by ring)
  have e3 : pyInt (((ds.ints 0 : ℚ) + (centre33 ds : ℚ) + (ds.ints 2 : ℚ)) / 3) =
      sq33 ds 7 (ds.ints 0) (ds.ints 2) := by
    rw [sq33, hz 7 (by norm_num) (by norm_num), zero_add]
    exact congrArg pyInt (by ring)
  have e4 : pyInt (((ds.ints 1 : ℚ) + (centre33 ds : ℚ) + (ds.ints 3 : ℚ)) / 3) =
      sq33 ds 8 (ds.ints 1) (ds.ints 3) := by
    rw [sq33, hz 8 (by norm_num) (by norm_num), zero_add]
    exact congrArg pyInt (by ring)
  have hr0 : cleanupRow (grid33 ds) 0 = some (grid33 ds) := by
    unfold cleanupRow
    rw [show pyGet2 (grid33 ds) 0 0 = some (ds.ints 0) from rfl]
    simp only []
    rw [if_neg (show ¬((0:Int) < 0 ∧
      (0:Int) < ((grid33 ds).length : Int) - 1) by simp)]
    rw [ite_self]
    simp only []
    rw [show pyGet2 (grid33 ds) 0 (-1) = some (ds.ints 1) from rfl]
    simp only []
    rw [if_neg (show ¬((0:Int) < 0 ∧
      (0:Int) < ((grid33 ds).length : Int) - 1) by simp)]
    rw [ite_self]
  have hgu1 : (0:Int) < 1 ∧ (1:Int) < ((grid33 ds).length : Int) - 1 := by
    norm_num [grid33]
  have hr1 : cleanupRow (grid33 ds) 1 = some (grid33 ds) := by
    unfold cleanupRow
    rw [show pyGet2 (grid33 ds) 1 0 = some (sq33 ds 7 (ds.ints 0) (ds.ints 2))
      from rfl]
    simp only []
    rw [if_pos hgu1]
    rw [show pyGet2 (grid33 ds) (1 - 1 : Int) 0 = some (ds.ints 0) from rfl,
      show pyGet2 (grid33 ds) 1 1 = some (centre33 ds) from rfl,
      show pyGet2 (grid33 ds) (1 + 1 : Int) 0 = some (ds.ints 2) from rfl]
    simp only []
    rw [e3, pySet2_self (show pyGet2 (grid33 ds) 1 0 =
      some (sq33 ds 7 (ds.ints 0) (ds.ints 2)) from rfl)]
    rw [ite_self]
    simp only []
    rw [show pyGet2 (grid33 ds) 1 (-1) = some (sq33 ds 8 (ds.ints 1) (ds.ints 3))
      from rfl]
    simp only []
    rw [if_pos hgu1]
    rw [show pyGet2 (grid33 ds) (1 - 1 : Int) (-1) = some (ds.ints 1) from rfl,
      show pyGet2 (grid33 ds) 1 (-2) = some (centre33 ds) from rfl,
      show pyGet2 (grid33 ds) (1 + 1 : Int) (-1) = some (ds.ints 3) from rfl]
    simp only []
    rw [e4, pySet2_self (show pyGet2 (grid33 ds) 1 (-1) =
      some (sq33 ds 8 (ds.ints 1) (ds.ints 3)) from rfl)]
    rw [ite_self]
  have hr2 : cleanupRow (grid33 ds) 2 = some (grid33 ds) := by
    unfold cleanupRow
    rw [show pyGet2 (grid33 ds) 2 0 = some (ds.ints 2) from rfl]
    simp only []
    rw [if_neg (show ¬((0:Int) < 2 ∧
      (2:Int) < ((grid33 ds).length : Int) - 1) by norm_num [grid33])]
    rw [ite_self]
    simp only []
    rw [show pyGet2 (grid33 ds) 2 (-1) = some (ds.ints 3) from rfl]
    simp only []
    rw [if_neg (show ¬((0:Int) < 2 ∧
      (2:Int) < ((grid33 ds).length : Int) - 1) by norm_num [grid33])]
    rw [ite_self]
  have hrows : cleanupRowsLoop (grid33 ds) (intRange (grid33 ds).length) =
      some (grid33 ds) := by
    show cleanupRowsLoop (grid33 ds) [0, 1, 2] = some (grid33 ds)
    rw [cleanupRowsLoop, hr0]
    simp only []
    rw [cleanupRowsLoop, hr1]
    simp only []
    rw [cleanupRowsLoop, hr2]
    simp only []
    rfl
  have hcol0 : cleanupCol (grid33 ds) 0 = some (grid33 ds) := by
    unfold cleanupCol
    rw [show pyGet2 (grid33 ds) 0 0 = some (ds.ints 0) from rfl]
    simp only []
    rw [if_neg (show ¬((0:Int) < 0) by norm_num)]
    rw [ite_self]
    simp only []
    rw [show pyGet2 (grid33 ds) (-1) 0 = some (ds.ints 2) from rfl]
    simp only []
    rw [if_neg (show ¬((0:Int) < 0) by norm_num)]
    rw [ite_self]
  have hcol1 : cleanupCol (grid33 ds) 1 = some (grid33 ds) := by
    unfold cleanupCol
    rw [show pyGet2 (grid33 ds) 0 1 = some (sq33 ds 5 (ds.ints 0) (ds.ints 1))
      from rfl]
    simp only []
    rw [if_pos (show (0:Int) < 1 by norm_num)]
    rw [show pyGetRow (grid33 ds) 0 =
      some [ds.ints 0, sq33 ds 5 (ds.ints 0) (ds.ints 1), ds.ints 1] from rfl]
    simp only []
    rw [if_pos (show (1:Int) <
      (([ds.ints 0, sq33 ds 5 (ds.ints 0) (ds.ints 1), ds.ints 1].length : Nat) : Int) - 1
      by simp)]
    rw [show pyGet2 (grid33 ds) 0 (1 - 1 : Int) = some (ds.ints 0) from rfl,
      show pyGet2 (grid33 ds) 1 1 = some (centre33 ds) from rfl,
      show pyGet2 (grid33 ds) 0 (1 + 1 : Int) = some (ds.ints 1) from rfl]
    simp only []
    rw [e1, pySet2_self (show pyGet2 (grid33 ds) 0 1 =
      some (sq33 ds 5 (ds.ints 0) (ds.ints 1)) from rfl)]
    rw [ite_self]
    simp only []
    rw [show pyGet2 (grid33 ds) (-1) 1 = some (sq33 ds 6 (ds.ints 2) (ds.ints 3))
      from rfl]
    simp only []
    rw [if_pos (show (0:Int) < 1 by norm_num)]
    rw [show pyGetRow (grid33 ds) 0 =
      some [ds.ints 0, sq33 ds 5 (ds.ints 0) (ds.ints 1), ds.ints 1] from rfl]
    simp only []
    rw [if_pos (show (1:Int) <
      (([ds.ints 0, sq33 ds 5 (ds.ints 0) (ds.ints 1), ds.ints 1].length : Nat) : Int) - 1
      by simp)]
    rw [show pyGet2 (grid33 ds) (-1) (1 - 1 : Int) = some (ds.ints 2) from rfl,
      show pyGet2 (grid33 ds) (-2) 1 = some (centre33 ds) from rfl,
      show pyGet2 (grid33 ds) (-1) (1 + 1 : Int) = some (ds.ints 3) from rfl]
    simp only []
    rw [e2, pySet2_self (show pyGet2 (grid33 ds) (-1) 1 =
      some (sq33 ds 6 (ds.ints 2) (ds.ints 3)) from rfl)]
    rw [ite_self]
  have hcol2 : cleanupCol (grid33 ds) 2 = some (grid33 ds) := by
    unfold cleanupCol
    rw [show pyGet2 (grid33 ds) 0 2 = some (ds.ints 1) from rfl]
    simp only []
    rw [if_pos (show (0:Int) < 2 by norm_num)]
    rw [show pyGetRow (grid33 ds) 0 =
      some [ds.ints 0, sq33 ds 5 (ds.ints 0) (ds.ints 1), ds.ints 1] from rfl]
    simp only []
    rw [if_neg (show ¬((2:Int) <
      (([ds.ints 0, sq33 ds 5 (ds.ints 0) (ds.ints 1), ds.ints 1].length : Nat) : Int) - 1)
      by simp)]
    rw [ite_self]
    simp only []
    rw [show pyGet2 (grid33 ds) (-1) 2 = some (ds.ints 3) from rfl]
    simp only []
    rw [if_pos (show (0:Int) < 2 by norm_num)]
    rw [show pyGetRow (grid33 ds) 0 =
      some [ds.ints 0, sq33 ds 5 (ds.ints 0) (ds.ints 1), ds.ints 1] from rfl]
    simp only []
    rw [if_neg (show ¬((2:Int) <
      (([ds.ints 0, sq33 ds 5 (ds.ints 0) (ds.ints 1), ds.ints 1].length : Nat) : Int) - 1)
      by simp)]
    rw [ite_self]
  have hcols : cleanupColsLoop (grid33 ds) [0, 1, 2] = some (grid33 ds) := by
    rw [cleanupColsLoop, hcol0]
    simp only []
    rw [cleanupColsLoop, hcol1]
    simp only []
    rw [cleanupColsLoop, hcol2]
    simp only []
    rfl
  unfold edgeCleanup
  rw [hrows]
  simp only []
  rw [show pyGetRow (grid33 ds) 0 =
    some [ds.ints 0, sq33 ds 5 (ds.ints 0) (ds.ints 1), ds.ints 1] from rfl]
  simp only []
  exact hcols

/-- C3: a full generation run on the 3×3 zero grid, for any draw stream
whose five deviation draws (numbers 4–8) respect the `randint(-2, 2)`
bounds, consumes exactly 9 draws (4 corner initializations, then 5
deviations: diamond centre, then the four square writes in order) and
returns the grid whose centre is deviation-4 plus the truncated average
of the four corners, whose edge midpoints are the stated deviation-plus-
truncated-average formulas, and whose corners are the four initialization
draws; i = j = 1 is selected with no draw, the recursive sub-calls write
nothing, and Edge Cleanup leaves every cell unchanged. -/
theorem threeByThree_run (ds : DrawStream)
    (hdev : ∀ k : Nat, 4 ≤ k → k ≤ 8 → -2 ≤ ds.ints k ∧ ds.ints k ≤ 2) :
    randAugDS ds [[0, 0, 0], [0, 0, 0], [0, 0, 0]] =
      Except.ok (grid33 ds, 9) := by
  have h1 : randAugDS ds [[0, 0, 0], [0, 0, 0], [0, 0, 0]] =
      (match edgeCleanup (grid33 ds) with
        | none => Except.error Err.oob
        | some gF => Except.ok (gF, 9)) := rfl
  rw [h1, edgeCleanup_grid33 ds hdev]

/-- Witness for C3: the stream drawing 1, 2, 3, 4 for the corners and 0
for every deviation satisfies the randint bounds, and the run returns
`grid33 ds33` after 9 draws. -/
theorem threeByThree_run_witness :
    (∀ k : Nat, 4 ≤ k → k ≤ 8 → -2 ≤ ds33.ints k ∧ ds33.ints k ≤ 2) ∧
    randAugDS ds33 [[0, 0, 0], [0, 0, 0], [0, 0, 0]] =
      Except.ok (grid33 ds33, 9) := by
  have hdev : ∀ k : Nat, 4 ≤ k → k ≤ 8 → -2 ≤ ds33.ints k ∧ ds33.ints k ≤ 2 := by
    intro k h1 h2
    show -2 ≤ (if k < 4 then (k : Int) + 1 else 0) ∧
      (if k < 4 then (k : Int) + 1 else 0) ≤ 2
    rw [if_neg (by omega)]
    norm_num
  exact ⟨hdev, threeByThree_run ds33 hdev⟩

theorem randAugIndex_snd06 (ds : DrawStream) (n : Nat) :
    (randAugIndex ds n 0 6).2 = n + 1 := by
  unfold randAugIndex
  norm_num
  split_ifs <;> rfl

/-- C8 (amended): on a 2×7 grid the first Driver call always takes the
column-degenerate branch (the x-axis range 0..1 has no interior index, so
`i = randAugIndex(0, 1) = 0 = x0` regardless of the y-axis midpoint draw),
consumes exactly one random draw, and interpolates the x = 0 line between
its endpoint values `a` and `b` — but, contrary to the claim, the x = 1
line is not interpolated: the Driver returns right after the one loop and
leaves every interior cell of the second line untouched (the spec's
"ramps along both rows" holds only for the first row; the second row is
later patched, not ramped, by Edge Cleanup — see the counterexample). -/
theorem twoBySeven_colDegenerate (ds : DrawStream) (fuel n : Nat)
    (a b c d : Int) :
    auxRandAugDS ds (fuel + 1)
      [[a, 0, 0, 0, 0, 0, b], [c, 0, 0, 0, 0, 0, d]] n 0 0 1 6 =
    Except.ok ([[a, ramp7 a b 1, ramp7 a b 2, ramp7 a b 3, ramp7 a b 4,
      ramp7 a b 5, b], [c, 0, 0, 0, 0, 0, d]], n + 1) := by
  have h1 : auxRandAugDS ds (fuel + 1)
      [[a, 0, 0, 0, 0, 0, b], [c, 0, 0, 0, 0, 0, d]] n 0 0 1 6 =
      Except.ok ([[a, ramp7 a b 1, ramp7 a b 2, ramp7 a b 3, ramp7 a b 4,
        ramp7 a b 5, b], [c, 0, 0, 0, 0, 0, d]],
        (randAugIndex ds n 0 6).2) := rfl
  rw [h1, randAugIndex_snd06]

/-- C8 counterexample: the full 2×7 run with draws 0, 0, 6, 6 (valid
`randint(0, 6)` draws) and float draws 0.  The first row's ramp runs
between its corner values 0 and 0, but the second row — corners 6 and 6,
whose claimed ramp value is 6 everywhere — comes out `[6, 2, 0, 0, 0, 2,
6]`: cell (1, 2) is 0, not the ramp value 6. -/
theorem twoBySeven_counterexample :
    randAugDS ds27 [[0, 0, 0, 0, 0, 0, 0], [0, 0, 0, 0, 0, 0, 0]] =
      Except.ok ([[0, 0, 0, 0, 0, 0, 0], [6, 2, 0, 0, 0, 2, 6]], 5) ∧
    RatsValid ds27 ∧ (∀ k : Nat, 0 ≤ ds27.ints k ∧ ds27.ints k ≤ 6) ∧
    ramp7 6 6 2 = 6 ∧
    pyGet2 [[0, 0, 0, 0, 0, 0, 0], [6, 2, 0, 0, 0, 2, 6]] 1 2 = some 0 ∧
    (0 : Int) ≠ 6 := by
  refine ⟨?_, fun _ => ⟨le_rfl, by norm_num [ds27]⟩, ?_, ?_, rfl, by norm_num⟩
  · have eA : pyInt ((((0 : Int) : ℚ) + ((0 : Int) : ℚ) + ((0 : Int) : ℚ)) / 3) =
        (0 : Int) := by
      apply pyInt_eq_of_cast
      push_cast
      norm_num
    have eB : pyInt ((((6 : Int) : ℚ) + ((0 : Int) : ℚ) + ((0 : Int) : ℚ)) / 3) =
        (2 : Int) := by
      apply pyInt_eq_of_cast
      push_cast
      norm_num
    have eC : pyInt ((((2 : Int) : ℚ) + ((0 : Int) : ℚ) + ((0 : Int) : ℚ)) / 3) =
        (0 : Int) := by
      apply pyInt_eq_zero
      · push_cast
        norm_num
      · push_cast
        norm_num
    have eD : pyInt ((((0 : Int) : ℚ) + ((0 : Int) : ℚ) + ((6 : Int) : ℚ)) / 3) =
        (2 : Int) := by
      apply pyInt_eq_of_cast
      push_cast
      norm_num
    have hc0 : cleanupCol [[0, 0, 0, 0, 0, 0, 0], [6, 0, 0, 0, 0, 0, 6]] 0 =
        some [[0, 0, 0, 0, 0, 0, 0], [6, 0, 0, 0, 0, 0, 6]] := rfl
    have hc1 : cleanupCol [[0, 0, 0, 0, 0, 0, 0], [6, 0, 0, 0, 0, 0, 6]] 1 =
        some [[0, 0, 0, 0, 0, 0, 0], [6, 2, 0, 0, 0, 0, 6]] := by
      rw [show cleanupCol [[0, 0, 0, 0, 0, 0, 0], [6, 0, 0, 0, 0, 0, 6]] 1 =
        some [[0, pyInt ((((0 : Int) : ℚ) + ((0 : Int) : ℚ) + ((0 : Int) : ℚ)) / 3),
          0, 0, 0, 0, 0],
         [6, pyInt ((((6 : Int) : ℚ) +
          ((pyInt ((((0 : Int) : ℚ) + ((0 : Int) : ℚ) + ((0 : Int) : ℚ)) / 3) : Int) : ℚ) +
          ((0 : Int) : ℚ)) / 3), 0, 0, 0, 0, 6]] from rfl, eA, eB]
    have hc2 : cleanupCol [[0, 0, 0, 0, 0, 0, 0], [6, 2, 0, 0, 0, 0, 6]] 2 =
        some [[0, 0, 0, 0, 0, 0, 0], [6, 2, 0, 0, 0, 0, 6]] := by
      rw [show cleanupCol [[0, 0, 0, 0, 0, 0, 0], [6, 2, 0, 0, 0, 0, 6]] 2 =
        some [[0, 0, pyInt ((((0 : Int) : ℚ) + ((0 : Int) : ℚ) + ((0 : Int) : ℚ)) / 3),
          0, 0, 0, 0],
         [6, 2, pyInt ((((2 : Int) : ℚ) +
          ((pyInt ((((0 : Int) : ℚ) + ((0 : Int) : ℚ) + ((0 : Int) : ℚ)) / 3) : Int) : ℚ) +
          ((0 : Int) : ℚ)) / 3), 0, 0, 0, 6]] from rfl, eA, eC]
    have hc3 : cleanupCol [[0, 0, 0, 0, 0, 0, 0], [6, 2, 0, 0, 0, 0, 6]] 3 =
        some [[0, 0, 0, 0, 0, 0, 0], [6, 2, 0, 0, 0, 0, 6]] := by
      rw [show cleanupCol [[0, 0, 0, 0, 0, 0, 0], [6, 2, 0, 0, 0, 0, 6]] 3 =
        some [[0, 0, 0, pyInt ((((0 : Int) : ℚ) + ((0 : Int) : ℚ) + ((0 : Int) : ℚ)) / 3),
          0, 0, 0],
         [6, 2, 0, pyInt ((((0 : Int) : ℚ) +
          ((pyInt ((((0 : Int) : ℚ) + ((0 : Int) : ℚ) + ((0 : Int) : ℚ)) / 3) : Int) : ℚ) +
          ((0 : Int) : ℚ)) / 3), 0, 0, 6]] from rfl, eA, eA]
    have hc4 : cleanupCol [[0, 0, 0, 0, 0, 0, 0], [6, 2, 0, 0, 0, 0, 6]] 4 =
        some [[0, 0, 0, 0, 0, 0, 0], [6, 2, 0, 0, 0, 0, 6]] := by
      rw [show cleanupCol [[0, 0, 0, 0, 0, 0, 0], [6, 2, 0, 0, 0, 0, 6]] 4 =
        some [[0, 0, 0, 0, pyInt ((((0 : Int) : ℚ) + ((0 : Int) : ℚ) + ((0 : Int) : ℚ)) / 3),
          0, 0],
         [6, 2, 0, 0, pyInt ((((0 : Int) : ℚ) +
          ((pyInt ((((0 : Int) : ℚ) + ((0 : Int) : ℚ) + ((0 : Int) : ℚ)) / 3) : Int) : ℚ) +
          ((0 : Int) : ℚ)) / 3), 0, 6]] from rfl, eA, eA]
    have hc5 : cleanupCol [[0, 0, 0, 0, 0, 0, 0], [6, 2, 0, 0, 0, 0, 6]] 5 =
        some [[0, 0, 0, 0, 0, 0, 0], [6, 2, 0, 0, 0, 2, 6]] := by
      rw [show cleanupCol [[0, 0, 0, 0, 0, 0, 0], [6, 2, 0, 0, 0, 0, 6]] 5 =
        some [[0, 0, 0, 0, 0, pyInt ((((0 : Int) : ℚ) + ((0 : Int) : ℚ) + ((0 : Int) : ℚ)) / 3),
          0],
         [6, 2, 0, 0, 0, pyInt ((((0 : Int) : ℚ) +
          ((pyInt ((((0 : Int) : ℚ) + ((0 : Int) : ℚ) + ((0 : Int) : ℚ)) / 3) : Int) : ℚ) +
          ((6 : Int) : ℚ)) / 3), 6]] from rfl, eA, eD]
    have hc6 : cleanupCol [[0, 0, 0, 0, 0, 0, 0], [6, 2, 0, 0, 0, 2, 6]] 6 =
        some [[0, 0, 0, 0, 0, 0, 0], [6, 2, 0, 0, 0, 2, 6]] := rfl
    have hcols : cleanupColsLoop [[0, 0, 0, 0, 0, 0, 0], [6, 0, 0, 0, 0, 0, 6]]
        [0, 1, 2, 3, 4, 5, 6] =
        some [[0, 0, 0, 0, 0, 0, 0], [6, 2, 0, 0, 0, 2, 6]] := by
      rw [cleanupColsLoop, hc0]
      simp only []
      rw [cleanupColsLoop, hc1]
      simp only []
      rw [cleanupColsLoop, hc2]
      simp only []
      rw [cleanupColsLoop, hc3]
      simp only []
      rw [cleanupColsLoop, hc4]
      simp only []
      rw [cleanupColsLoop, hc5]
      simp only []
      rw [cleanupColsLoop, hc6]
      simp only []
      rfl
    have hclean : edgeCleanup [[0, 0, 0, 0, 0, 0, 0], [6, 0, 0, 0, 0, 0, 6]] =
        some [[0, 0, 0, 0, 0, 0, 0], [6, 2, 0, 0, 0, 2, 6]] := by
      unfold edgeCleanup
      rw [show cleanupRowsLoop [[0, 0, 0, 0, 0, 0, 0], [6, 0, 0, 0, 0, 0, 6]]
        (intRange ([[0, 0, 0, 0, 0, 0, 0], [6, 0, 0, 0, 0, 0, 6]] : Grid).length) =
        some [[0, 0, 0, 0, 0, 0, 0], [6, 0, 0, 0, 0, 0, 6]] from rfl]
      simp only []
      rw [show pyGetRow [[0, 0, 0, 0, 0, 0, 0], [6, 0, 0, 0, 0, 0, 6]] 0 =
        some [0, 0, 0, 0, 0, 0, 0] from rfl]
      simp only []
      exact hcols
    have hE : ∀ y : Int, ramp7 0 0 y = 0 := by
      intro y
      unfold ramp7
      apply pyInt_eq_of_cast
      push_cast
      ring
    have hsnd : (randAugIndex ds27 4 0 6).2 = 5 := randAugIndex_snd06 ds27 4
    have h1 : randAugDS ds27 [[0, 0, 0, 0, 0, 0, 0], [0, 0, 0, 0, 0, 0, 0]] =
        (match edgeCleanup [[0, ramp7 0 0 1, ramp7 0 0 2, ramp7 0 0 3,
            ramp7 0 0 4, ramp7 0 0 5, 0], [6, 0, 0, 0, 0, 0, 6]] with
          | none => Except.error Err.oob
          | some gF => Except.ok (gF, (randAugIndex ds27 4 0 6).2)) := rfl
    rw [h1, hE 1, hE 2, hE 3, hE 4, hE 5, hsnd, hclean]
  · intro k
    by_cases h : k < 2 <;> simp [ds27, h]
  · unfold ramp7
    apply pyInt_eq_of_cast
    push_cast
    norm_num

/-- C9 counterexample: on a 1×2 grid (W = 1) the four corner cells
coincide pairwise, so corner initialization overwrites its own writes:
with draws 0, 1, 1, 0 (all valid for `randint(0, 1)`) the completed run
returns `[[1, 0]]`, whose cell `(0, 0)` holds draw 2 (= 1), not draw 0
(= 0) as the claim states for every W, H ≥ 1. -/
theorem randAugDS_corners_overlap :
    randAugDS ds12 [[0, 0]] = Except.ok ([[1, 0]], 4) ∧
    pyGet2 [[1, 0]] 0 0 = some (ds12.ints 2) ∧
    ds12.ints 0 = 0 ∧ ds12.ints 2 = 1 ∧ ds12.ints 0 ≠ ds12.ints 2 ∧
    RatsValid ds12 ∧ (∀ k : Nat, 0 ≤ ds12.ints k ∧ ds12.ints k ≤ 1) := by
  refine ⟨rfl, rfl, rfl, rfl, by norm_num [ds12],
    fun _ => ⟨le_rfl, by norm_num [ds12]⟩, ?_⟩
  intro k
  show (0 : Int) ≤ (if k = 1 ∨ k = 2 then 1 else 0) ∧
    (if k = 1 ∨ k = 2 then (1 : Int) else 0) ≤ 1
  split_ifs <;> norm_num

end AugDS
